import Mathlib

/-!
Formal model of the finansist-bot transaction-interpretation and
ledger-aggregation core (src/bot.py), together with theorems settling the
specification's claims against it.

The Python source is shallowly embedded: each Python function used by a
claim becomes a Lean definition of the same name (camel-cased), amounts
are modelled as rationals, Python exceptions as `Option`/`Except`, and the
external Google-Sheets store as an explicit list of rows (reads) plus an
explicit append log (writes).
-/

set_option autoImplicit false
set_option maxRecDepth 40000

/- Rational arithmetic must evaluate on the concrete inputs of the witness
and counterexample theorems below, so the arithmetic operations' default
irreducibility is lifted (this changes nothing about what is provable). -/
set_option allowUnsafeReducibility true
attribute [semireducible] Rat.add Rat.mul Rat.inv Rat.sub Rat.ofScientific

/-! ## Python string primitives used by the source -/

/-- Whitespace recognised by Python's `str.strip` (the characters that can
actually occur in the bot's data: space, tab, newline, carriage return,
vertical tab, form feed). -/
def isPyWs (c : Char) : Bool :=
  c == ' ' || c == '\t' || c == '\n' || c == '\r' || c == '\x0B' || c == '\x0C'

/-- `str.strip()` on a list of characters: drop whitespace from both ends. -/
def pyStripL (l : List Char) : List Char :=
  ((l.dropWhile isPyWs).reverse.dropWhile isPyWs).reverse

/-- Python `str.strip()`. -/
def pyStrip (s : String) : String :=
  ⟨pyStripL s.data⟩

/-- Lower-casing of one character as Python `str.lower()` does it, for the
alphabets that occur in the bot (ASCII and Russian Cyrillic, including Ё). -/
def charLower (c : Char) : Char :=
  if 65 ≤ c.toNat && c.toNat ≤ 90 then Char.ofNat (c.toNat + 32)
  else if 0x410 ≤ c.toNat && c.toNat ≤ 0x42F then Char.ofNat (c.toNat + 32)
  else if c.toNat == 0x401 then Char.ofNat 0x451
  else c

/-- Upper-casing of one character (ASCII and Russian Cyrillic), as used by
Python `str.capitalize()`. -/
def charUpper (c : Char) : Char :=
  if 97 ≤ c.toNat && c.toNat ≤ 122 then Char.ofNat (c.toNat - 32)
  else if 0x430 ≤ c.toNat && c.toNat ≤ 0x44F then Char.ofNat (c.toNat - 32)
  else if c.toNat == 0x451 then Char.ofNat 0x401
  else c

/-- Python `str.lower()`. -/
def pyLower (s : String) : String :=
  ⟨s.data.map charLower⟩

/-- Python `str.capitalize()`: first character upper-cased, the rest
lower-cased. -/
def pyCapitalize (s : String) : String :=
  match s.data with
  | [] => ""
  | c :: rest => ⟨charUpper c :: rest.map charLower⟩

/-- Python slicing `s[a:b]` (with `0 ≤ a ≤ b`). -/
def pySlice (s : String) (a b : Nat) : String :=
  ⟨(s.data.drop a).take (b - a)⟩

/-- One scan step of Python `str.replace`: replace non-overlapping
occurrences of `pat` by `rep`, scanning left to right.  `fuel` bounds the
recursion; it is called with `fuel = length of the input`, which always
suffices because every step consumes at least one character (`pat` is
never empty in the source). -/
def replFuel : Nat → List Char → List Char → List Char → List Char
  | 0, _, _, l => l
  | _ + 1, _, _, [] => []
  | fuel + 1, pat, rep, c :: cs =>
    if !pat.isEmpty && pat.isPrefixOf (c :: cs) then
      rep ++ replFuel fuel pat rep (List.drop pat.length (c :: cs))
    else
      c :: replFuel fuel pat rep cs

/-- `replFuel` at its canonical fuel (the input's length, which always
suffices). -/
def replL (pat rep l : List Char) : List Char :=
  replFuel l.length pat rep l

/-- Python `str.replace(pat, rep)` (all occurrences). -/
def pyReplace (s pat rep : String) : String :=
  ⟨replL pat.data rep.data s.data⟩

/-! ## Decimal rendering (used by `strftime` and `format(x, ",")`) -/

/-- The character for decimal digit `d` (`d < 10`). -/
def decDigit (d : Nat) : Char :=
  Char.ofNat (48 + d)

/-- Decimal rendering of a natural number, accumulator style; `fuel` bounds
the recursion and `n + 1` always suffices. -/
def toDecAux : Nat → Nat → List Char → List Char
  | 0, _, acc => acc
  | fuel + 1, n, acc =>
    if n < 10 then decDigit n :: acc
    else toDecAux fuel (n / 10) (decDigit (n % 10) :: acc)

/-- Decimal digit characters of a natural number. -/
def toDecL (n : Nat) : List Char :=
  toDecAux (n + 1) n []

/-- Insert `','` after every three characters of a reversed digit list, as
the grouping of Python's `format(x, ",")` does counted from the right. -/
def commifyRev : List Char → List Char
  | a :: b :: c :: d :: rest => a :: b :: c :: ',' :: commifyRev (d :: rest)
  | l => l

/-- Python `f"{n:,}"` for an integer: decimal digits grouped by thousands
with commas, with a leading minus sign for negatives. -/
def pyFmtComma (n : Int) : String :=
  (if n < 0 then "-" else "") ++ ⟨(commifyRev (toDecL n.natAbs).reverse).reverse⟩

/-- Python `int(q)` on a float/decimal value: truncation toward zero. -/
def pyInt (q : Rat) : Int :=
  Int.tdiv q.num q.den

/-! ## Python `float(s)` and the bot's amount coercion -/

/-- Numeric value of a list of decimal digit characters. -/
def digitsVal (l : List Char) : Nat :=
  l.foldl (fun a c => 10 * a + (c.toNat - 48)) 0

/-- An optional leading `+`/`-` sign: the sign as `1`/`-1` and the rest of
the input. -/
def splitSign (l : List Char) : Int × List Char :=
  match l with
  | [] => (1, [])
  | c :: r => if c = '+' then (1, r) else if c = '-' then (-1, r) else (1, c :: r)

/-- Exponent part of a float literal after the `e`/`E`: optional sign and at
least one digit, consuming the whole rest of the input.  Returns the factor
`10 ^ exponent`. -/
def expMultAfter (l : List Char) : Option Rat :=
  let sl := splitSign l
  let ds := sl.2.takeWhile Char.isDigit
  let rest := sl.2.dropWhile Char.isDigit
  if ds.isEmpty || !rest.isEmpty then none
  else some ((10 : Rat) ^ (sl.1 * (digitsVal ds : Int)))

/-- Optional exponent of a float literal; the input must be empty or a full
exponent.  Returns the factor to multiply by. -/
def expMult : List Char → Option Rat
  | [] => some 1
  | 'e' :: r => expMultAfter r
  | 'E' :: r => expMultAfter r
  | _ => none

/-- The mantissa/fraction/exponent tail of `float` parsing: `ip` is the
integer-part digit run, `r1` what follows it. -/
def floatTail (sgn : Rat) (ip r1 : List Char) : Option Rat :=
  match r1 with
  | '.' :: r2 =>
    let fp := r2.takeWhile Char.isDigit
    let r3 := r2.dropWhile Char.isDigit
    if ip.isEmpty && fp.isEmpty then none
    else (expMult r3).map (fun e =>
      sgn * ((digitsVal ip : Rat) + (digitsVal fp : Rat) / 10 ^ fp.length) * e)
  | _ =>
    if ip.isEmpty then none
    else (expMult r1).map (fun e => sgn * (digitsVal ip : Rat) * e)

/-- Python `float(s)` on the decimal forms that occur in the bot's data:
surrounding whitespace, an optional sign, digits with an optional decimal
point (at least one digit overall) and an optional exponent.  The special
forms `inf`/`nan` and `_` digit grouping are not modelled (they never reach
this code).  Returns `none` where Python raises `ValueError`. -/
def pyFloat? (s : String) : Option Rat :=
  let sl := splitSign (pyStripL s.data)
  floatTail (sl.1 : Rat) (sl.2.takeWhile Char.isDigit) (sl.2.dropWhile Char.isDigit)

/-- The amount coercion both read paths use:
`float(str(cell).replace(" ", "").replace(",", ".") or 0)`.
An empty residual string short-circuits through `or 0` to `float(0) = 0`;
otherwise the residual string is parsed as a float.  `none` models the
`ValueError` Python raises on a non-numeric residual. -/
def coerceAmount (s : String) : Option Rat :=
  let s2 := pyReplace (pyReplace s " " "") "," "."
  if s2.data.isEmpty then some 0 else pyFloat? s2

/-- Python `int(s)` on a string: surrounding whitespace, optional sign,
at least one digit and nothing else (no `_` grouping, which never occurs
here).  `none` models `ValueError`. -/
def pyIntOfStr (s : String) : Option Int :=
  let sl := splitSign (pyStripL s.data)
  let ds := sl.2.takeWhile Char.isDigit
  let rest := sl.2.dropWhile Char.isDigit
  if ds.isEmpty || !rest.isEmpty then none
  else some (sl.1 * (digitsVal ds : Int))

/-! ## JSON values and `json.loads` -/

/-- A parsed JSON value.  Python's distinction between `int` and `float`
numbers is collapsed into one rational `num` constructor (no claim
observes the distinction). -/
inductive Json where
  | null
  | bool (b : Bool)
  | num (q : Rat)
  | str (s : String)
  | arr (elems : List Json)
  | obj (fields : List (String × Json))

/-- Whitespace accepted between JSON tokens by `json.loads`. -/
def isJsonWs (c : Char) : Bool :=
  c == ' ' || c == '\t' || c == '\n' || c == '\r'

/-- Skip JSON inter-token whitespace. -/
def skipWs (l : List Char) : List Char :=
  l.dropWhile isJsonWs

/-- Value of a hexadecimal digit character. -/
def hexVal (c : Char) : Nat :=
  if 48 ≤ c.toNat && c.toNat ≤ 57 then c.toNat - 48
  else if 97 ≤ c.toNat && c.toNat ≤ 102 then c.toNat - 87
  else if 65 ≤ c.toNat && c.toNat ≤ 70 then c.toNat - 55
  else 0

/-- Is `c` a hexadecimal digit? -/
def isHexDigit (c : Char) : Bool :=
  (48 ≤ c.toNat && c.toNat ≤ 57) || (97 ≤ c.toNat && c.toNat ≤ 102)
    || (65 ≤ c.toNat && c.toNat ≤ 70)

/-- Body of a JSON string literal, after the opening quote: characters up
to the closing quote, processing backslash escapes; unescaped control
characters are rejected as `json.loads` (strict mode) does.  Surrogate-pair
`\uXXXX` recombination is not modelled (it never occurs here). -/
def pStrChars : List Char → Option (List Char × List Char)
  | [] => none
  | '"' :: r => some ([], r)
  | '\\' :: e :: r =>
    match e, r with
    | '"', r1 => (pStrChars r1).map (fun p => ('"' :: p.1, p.2))
    | '\\', r1 => (pStrChars r1).map (fun p => ('\\' :: p.1, p.2))
    | '/', r1 => (pStrChars r1).map (fun p => ('/' :: p.1, p.2))
    | 'b', r1 => (pStrChars r1).map (fun p => (Char.ofNat 8 :: p.1, p.2))
    | 'f', r1 => (pStrChars r1).map (fun p => (Char.ofNat 12 :: p.1, p.2))
    | 'n', r1 => (pStrChars r1).map (fun p => ('\n' :: p.1, p.2))
    | 'r', r1 => (pStrChars r1).map (fun p => ('\r' :: p.1, p.2))
    | 't', r1 => (pStrChars r1).map (fun p => ('\t' :: p.1, p.2))
    | 'u', h1 :: h2 :: h3 :: h4 :: r1 =>
      if isHexDigit h1 && isHexDigit h2 && isHexDigit h3 && isHexDigit h4 then
        (pStrChars r1).map (fun p =>
          (Char.ofNat (((hexVal h1 * 16 + hexVal h2) * 16 + hexVal h3) * 16 + hexVal h4) :: p.1,
            p.2))
      else none
    | _, _ => none
  | c :: r =>
    if c.toNat < 32 then none
    else (pStrChars r).map (fun p => (c :: p.1, p.2))

/-- Exponent tail of a JSON number literal (after `e`/`E`). -/
def pNumExp (neg : Bool) (base : Rat) (l : List Char) : Option (Json × List Char) :=
  let esgn : Int := match l with
    | '+' :: _ => 1
    | '-' :: _ => -1
    | _ => 1
  let l1 : List Char := match l with
    | '+' :: r => r
    | '-' :: r => r
    | r => r
  let ds := l1.takeWhile Char.isDigit
  let rest := l1.dropWhile Char.isDigit
  if ds.isEmpty then none
  else some (.num ((if neg then -1 else 1) * base * (10 : Rat) ^ (esgn * (digitsVal ds : Int))),
    rest)

/-- A JSON number literal: optional minus, integer part without redundant
leading zero, optional fraction (at least one digit), optional exponent.
Returns its value and the unconsumed rest. -/
def pNumber (l : List Char) : Option (Json × List Char) :=
  let neg : Bool := match l with
    | '-' :: _ => true
    | _ => false
  let l1 : List Char := match l with
    | '-' :: r => r
    | r => r
  let ip := l1.takeWhile Char.isDigit
  let r1 := l1.dropWhile Char.isDigit
  if ip.isEmpty then none
  else if 1 < ip.length && ip.head? == some '0' then none
  else
    let step2 : Option ((List Char × List Char)) := match r1 with
      | '.' :: r2 =>
        let fp := r2.takeWhile Char.isDigit
        let r3 := r2.dropWhile Char.isDigit
        if fp.isEmpty then none else some (fp, r3)
      | _ => some ([], r1)
    match step2 with
    | none => none
    | some (fp, r3) =>
      let base : Rat := (digitsVal ip : Rat) + (digitsVal fp : Rat) / 10 ^ fp.length
      match r3 with
      | 'e' :: r4 => pNumExp neg base r4
      | 'E' :: r4 => pNumExp neg base r4
      | _ => some (.num ((if neg then -1 else 1) * base), r3)

mutual

/-- One JSON value, leading whitespace already skipped.  `fuel` bounds the
nesting depth; `json.loads` is modelled by running with fuel larger than
the input length.  `Infinity`/`NaN` extensions are not modelled (they never
occur here). -/
def pValue : Nat → List Char → Option (Json × List Char)
  | 0, _ => none
  | _ + 1, 'n' :: 'u' :: 'l' :: 'l' :: r => some (.null, r)
  | _ + 1, 't' :: 'r' :: 'u' :: 'e' :: r => some (.bool true, r)
  | _ + 1, 'f' :: 'a' :: 'l' :: 's' :: 'e' :: r => some (.bool false, r)
  | _ + 1, '"' :: r => (pStrChars r).map (fun p => (.str ⟨p.1⟩, p.2))
  | fuel + 1, '[' :: r =>
    (match skipWs r with
     | ']' :: r1 => some (.arr [], r1)
     | r1 => (pElems fuel r1).map (fun p => (.arr p.1, p.2)))
  | fuel + 1, '{' :: r =>
    (match skipWs r with
     | '}' :: r1 => some (.obj [], r1)
     | r1 => (pMembers fuel r1).map (fun p => (.obj p.1, p.2)))
  | _ + 1, l => pNumber l

/-- Non-empty comma-separated array elements, ending at `]`. -/
def pElems : Nat → List Char → Option (List Json × List Char)
  | 0, _ => none
  | fuel + 1, l =>
    match pValue fuel l with
    | none => none
    | some (v, r) =>
      match skipWs r with
      | ',' :: r1 =>
        (pElems fuel (skipWs r1)).map (fun p => (v :: p.1, p.2))
      | ']' :: r1 => some ([v], r1)
      | _ => none

/-- Non-empty comma-separated object members, ending at `}`. -/
def pMembers : Nat → List Char → Option (List (String × Json) × List Char)
  | 0, _ => none
  | fuel + 1, l =>
    match l with
    | '"' :: r =>
      match pStrChars r with
      | none => none
      | some (k, r1) =>
        match skipWs r1 with
        | ':' :: r2 =>
          match pValue fuel (skipWs r2) with
          | none => none
          | some (v, r3) =>
            match skipWs r3 with
            | ',' :: r4 =>
              (pMembers fuel (skipWs r4)).map (fun p => ((⟨k⟩, v) :: p.1, p.2))
            | '}' :: r4 => some ([(⟨k⟩, v)], r4)
            | _ => none
        | _ => none
    | _ => none

end

/-- Python `json.loads`: skip whitespace, parse one value, require nothing
but whitespace after it.  `none` models `json.JSONDecodeError`. -/
def jsonLoads (s : String) : Option Json :=
  match pValue (s.data.length + 1) (skipWs s.data) with
  | some (v, r) => if (skipWs r).isEmpty then some v else none
  | none => none

/-! ## Ledger rows and monthly statistics (`get_month_stats`) -/

/-- One row of the Транзакции sheet as `sheet.get_all_records()` delivers it
to the read paths.  The source re-reads every field through `str(...)`, so
fields are modelled as the resulting strings (an empty cell reads as `""`;
the sheet always carries all five header columns). -/
structure Row where
  date : String
  typ : String
  amount : String
  category : String
  description : String
deriving DecidableEq

/-- The dictionary `get_month_stats` returns.  `categories` keeps Python's
dict insertion order (first-seen order of category keys during the fold). -/
structure Stats where
  expense : Rat
  income : Rat
  categories : List (String × Rat)
  debtsGiven : Rat
  debtsReceived : Rat
  month : String
deriving DecidableEq

/-- The month filter of `get_month_stats`:
`len(date_str) >= 7 and date_str[3:10] == current_month`. -/
def dateMatch (currentMonth : String) (r : Row) : Bool :=
  decide (7 ≤ r.date.length) && (pySlice r.date 3 10 == currentMonth)

/-- First value stored under key `k` in an insertion-ordered association
list (Python dict lookup; keys are unique by construction). -/
def lookupA (l : List (String × Rat)) (k : String) : Option Rat :=
  (l.find? (fun p => p.1 == k)).map (fun p => p.2)

/-- Add `a` to the value stored under `k`, in place (Python
`d[k] = d[k] + a` / `d[k] += a` on a key that is present). -/
def addAt (l : List (String × Rat)) (k : String) (a : Rat) : List (String × Rat) :=
  l.map (fun p => if p.1 == k then (p.1, p.2 + a) else p)

/-- Python `d[k] = d.get(k, 0) + a`: update in place if the key is present,
else append the new key at the end (dict insertion order). -/
def bump (l : List (String × Rat)) (k : String) (a : Rat) : List (String × Rat) :=
  if (lookupA l k).isSome then addAt l k a else l ++ [(k, a)]

/-- One iteration of the `get_month_stats` row loop.  The whole body is
inside `try/except: continue`, and the only statement that can raise is the
amount coercion, so a row with a non-numeric amount leaves the accumulator
unchanged. -/
def statsStep (currentMonth : String) (acc : Stats) (r : Row) : Stats :=
  if dateMatch currentMonth r then
    match coerceAmount r.amount with
    | none => acc
    | some amount =>
      let t := pyLower r.typ
      let cat := r.category
      if t == "расход" then
        { acc with
          expense := acc.expense + amount
          categories := bump acc.categories cat amount }
      else if t == "доход" then { acc with income := acc.income + amount }
      else if t == "долг" then
        if cat == "долг_выдал" then { acc with debtsGiven := acc.debtsGiven + amount }
        else if cat == "долг_получил" then
          { acc with debtsReceived := acc.debtsReceived + amount }
        else acc
      else acc
  else acc

/-- `get_month_stats` over the scanned rows, with the ambient
`now.strftime("%m.%Y")` and `now.strftime("%B %Y")` passed in as
parameters. -/
def getMonthStats (currentMonth monthLabel : String) (records : List Row) : Stats :=
  records.foldl (statsStep currentMonth) ⟨0, 0, [], 0, 0, monthLabel⟩

/-! ## Category ranking (`sorted(..., key=lambda x: x[1], reverse=True)`) -/

/-- Stable descending insertion: place `x` before the first element whose
value does not exceed `x`'s, so that earlier elements win ties. -/
def insertDesc (x : String × Rat) : List (String × Rat) → List (String × Rat)
  | [] => [x]
  | q :: qs => if q.2 ≤ x.2 then x :: q :: qs else q :: insertDesc x qs

/-- Python `sorted(items, key=lambda x: x[1], reverse=True)`: the stable
sort of the pairs, descending by value (modelled by stable insertion sort,
which computes the same list as any stable descending sort). -/
def sortDescByVal : List (String × Rat) → List (String × Rat)
  | [] => []
  | x :: xs => insertDesc x (sortDescByVal xs)

/-- The category list `send_stats` displays: `sorted_cats[:7]`. -/
def displayedCats (cats : List (String × Rat)) : List (String × Rat) :=
  (sortDescByVal cats).take 7

/-! ## `send_stats` -/

/-- The reply `send_stats` sends when `get_month_stats` raises. -/
def statsErrMsg : String :=
  "❌ Не удалось получить статистику. Попробуй позже."

/-- One line of the per-category breakdown. -/
def catLine (p : String × Rat) : String :=
  "  • " ++ p.1 ++ ": " ++ pyFmtComma (pyInt p.2) ++ " сум"

/-- The statistics message body assembled by `send_stats`. -/
def buildStatsMsg (st : Stats) : String :=
  let catLines :=
    if st.categories.isEmpty then ""
    else String.intercalate "\n" ((displayedCats st.categories).map catLine)
  let balance := st.income - st.expense
  let balanceEmoji := if 0 ≤ balance then "📈" else "📉"
  let msg :=
    "📊 <b>Итоги за " ++ st.month ++ "</b>\n\n💰 Доходы: <b>"
      ++ pyFmtComma (pyInt st.income) ++ " сум</b>\n💸 Расходы: <b>"
      ++ pyFmtComma (pyInt st.expense) ++ " сум</b>\n" ++ balanceEmoji
      ++ " Баланс: <b>" ++ pyFmtComma (pyInt balance)
      ++ " сум</b>\n\n📂 <b>По категориям:</b>\n"
      ++ (if catLines == "" then "Нет данных" else catLines)
  if 0 < st.debtsGiven || 0 < st.debtsReceived then
    msg ++ "\n\n🤝 <b>Долги:</b>\nВыдал: " ++ pyFmtComma (pyInt st.debtsGiven)
      ++ " сум\nПолучил: " ++ pyFmtComma (pyInt st.debtsReceived) ++ " сум"
  else msg

/-- `send_stats`: the whole body is wrapped in `try/except`, so a failing
sheet read is caught and answered with `statsErrMsg`; otherwise the stats
message is sent.  The store read result is the explicit parameter. -/
def sendStats (store : Except Unit (List Row)) (currentMonth monthLabel : String) :
    List String :=
  match store with
  | .error _ => [statsErrMsg]
  | .ok records => [buildStatsMsg (getMonthStats currentMonth monthLabel records)]

/-! ## `send_debts` -/

/-- One iteration of the `send_debts` row loop: the amount coercion is in
its own `try/except` that falls back to `0`; rows with lower-cased type
`"долг"` and a non-empty (raw) description update the counterparty keyed by
the stripped description. -/
def debtStep (acc : List (String × Rat)) (r : Row) : List (String × Rat) :=
  let t := pyLower r.typ
  let cat := r.category
  let amount := (coerceAmount r.amount).getD 0
  if t == "долг" && r.description != "" then
    let name := pyStrip r.description
    let acc1 := if (lookupA acc name).isSome then acc else acc ++ [(name, 0)]
    if cat == "долг_выдал" then addAt acc1 name amount
    else if cat == "долг_получил" then addAt acc1 name (-amount)
    else acc1
  else acc

/-- The debts dictionary `send_debts` folds over all scanned rows. -/
def computeDebts (records : List Row) : List (String × Rat) :=
  records.foldl debtStep []

/-- One display line per counterparty: positive balances owe the user,
negative ones are owed by the user, zero balances are omitted. -/
def debtLine (p : String × Rat) : Option String :=
  if 0 < p.2 then
    some ("• " ++ p.1 ++ " должен тебе: <b>" ++ pyFmtComma (pyInt p.2) ++ " сум</b>")
  else if p.2 < 0 then
    some ("• Ты должен " ++ p.1 ++ ": <b>" ++ pyFmtComma (pyInt |p.2|) ++ " сум</b>")
  else none

/-- `send_debts`: the sheet read is NOT wrapped in `try/except`, so a
failing read propagates out of the handler (`.error`); otherwise the debts
message is sent. -/
def sendDebts (store : Except Unit (List Row)) : Except Unit (List String) :=
  match store with
  | .error _ => .error ()
  | .ok records =>
    let debts := computeDebts records
    if debts.isEmpty then .ok ["🤝 Долгов нет!"]
    else
      let lines := debts.filterMap debtLine
      if lines.isEmpty then .ok ["✅ Все долги погашены!"]
      else .ok ["🤝 <b>Долги:</b>\n\n" ++ String.intercalate "\n" lines]

/-! ## The write path: `parse_message` and `add_transaction` -/

/-- `parse_message` after the service call: strip the response, delete all
occurrences of the fence tokens, strip again, and `json.loads` the result.
The service call itself is kept outside (the response arrives as the
argument); `none` models the `json.JSONDecodeError` escape. -/
def parseMessage (resp : String) : Option Json :=
  let content := pyStrip resp
  jsonLoads (pyStrip (pyReplace (pyReplace content "```json" "") "```" ""))

/-- Python `row.get(k, d)` on a parsed JSON object. -/
def jGetD (v : Json) (k : String) (d : Json) : Json :=
  match v with
  | .obj kvs => ((kvs.find? (fun p => p.1 == k)).map (fun p => p.2)).getD d
  | _ => d

/-- Is the JSON value an object (a Python dict)? -/
def isObj : Json → Bool
  | .obj _ => true
  | _ => false

/-- The 5-column sheet row `add_transaction` appends for one candidate:
timestamp, type, amount, category, description, with the source's
defaults for missing keys.  Cells hold the raw JSON values handed to
`append_row`. -/
def mkRow (nowStamp : String) (r : Json) : List Json :=
  [.str nowStamp, jGetD r "тип" (.str "расход"), jGetD r "сумма" (.num 0),
    jGetD r "категория" (.str "другое"), jGetD r "описание" (.str "")]

/-- The `for row in rows` append loop of `add_transaction`: appends a row
per element while elements are dicts; a non-dict element raises
(`AttributeError` on `.get`) after the earlier appends already happened.
Returns the final sheet and whether an exception escaped. -/
def addTransGo (nowStamp : String) : List Json → List (List Json) → List (List Json) × Bool
  | [], sheet => (sheet, false)
  | r :: rest, sheet =>
    if isObj r then addTransGo nowStamp rest (sheet ++ [mkRow nowStamp r])
    else (sheet, true)

/-- `add_transaction(rows)` with the batch timestamp `nowStamp` (computed
once, before the loop) and the current sheet contents.  Python iteration
semantics for the non-list values `json.loads` may deliver: iterating a
dict yields its keys (strings, whose `.get` raises at the first key),
iterating a string yields 1-character strings (likewise), and numbers,
booleans and `None` are not iterable (`TypeError`); all of those append
nothing. -/
def addTransaction (nowStamp : String) (rows : Json) (sheet : List (List Json)) :
    List (List Json) × Bool :=
  match rows with
  | .arr l => addTransGo nowStamp l sheet
  | .obj kvs => (sheet, !kvs.isEmpty)
  | .str s => (sheet, !s.data.isEmpty)
  | _ => (sheet, true)

/-! ## The confirmation message of `handle_message` -/

/-- Python `r[k]` on a parsed JSON value: `KeyError` for a missing key,
`TypeError`/`KeyError` for non-dict values. -/
def itemGet (v : Json) (k : String) : Except Unit Json :=
  match v with
  | .obj kvs =>
    match (kvs.find? (fun p => p.1 == k)).map (fun p => p.2) with
    | some w => .ok w
    | none => .error ()
  | _ => .error ()

/-- Python `v == "s"` for a parsed JSON value against a string literal. -/
def jsonEqStr (v : Json) (s : String) : Bool :=
  match v with
  | .str t => t == s
  | _ => false

/-- Python `int(v)` on a parsed JSON value: numbers truncate toward zero,
booleans coerce to 0/1, strings parse strictly, everything else raises. -/
def pyIntOfJson : Json → Option Int
  | .num q => some (pyInt q)
  | .bool b => some (if b then 1 else 0)
  | .str s => pyIntOfStr s
  | _ => none

/-- Python `str(v)` as used inside f-strings.  Strings, booleans, `None`
and integral numbers are rendered faithfully; the rendering of non-integral
floats and containers is approximate (no claim observes those renderings). -/
def pyStr : Json → String
  | .str s => s
  | .num q =>
    (if q.num < 0 then "-" else "") ++ (⟨toDecL q.num.natAbs⟩ : String)
      ++ (if q.den == 1 then "" else ".?")
  | .bool b => if b then "True" else "False"
  | .null => "None"
  | _ => "?"

/-- Python `v.capitalize()`: only strings have the method. -/
def pyCapitalizeJ : Json → Except Unit String
  | .str s => .ok (pyCapitalize s)
  | _ => .error ()

/-- Lift an `Option` into the handler's exception monad. -/
def orRaise {α : Type} : Option α → Except Unit α
  | some a => .ok a
  | none => .error ()

/-- The single-transaction confirmation
(`f"{emoji} Записано!..."`, lines 166-169). -/
def confirmSingle (r : Json) : Except Unit String := do
  let t ← itemGet r "тип"
  let emoji :=
    if jsonEqStr t "расход" then "💸" else if jsonEqStr t "доход" then "💰" else "🤝"
  let d ← itemGet r "описание"
  let dcap ← pyCapitalizeJ d
  let a ← itemGet r "сумма"
  let n ← orRaise (pyIntOfJson a)
  let c ← itemGet r "категория"
  pure (emoji ++ " Записано!\n\n" ++ dcap ++ " — " ++ pyFmtComma n ++ " сум\nКатегория: "
    ++ pyStr c)

/-- `sum(int(r["сумма"]) for r in rows)`. -/
def confirmTotal : List Json → Except Unit Int
  | [] => .ok 0
  | r :: rest => do
    let a ← itemGet r "сумма"
    let n ← orRaise (pyIntOfJson a)
    let s ← confirmTotal rest
    pure (n + s)

/-- The per-item bullet lines of the multi-transaction confirmation. -/
def confirmLines : List Json → Except Unit (List String)
  | [] => .ok []
  | r :: rest => do
    let d ← itemGet r "описание"
    let dcap ← pyCapitalizeJ d
    let a ← itemGet r "сумма"
    let n ← orRaise (pyIntOfJson a)
    let ls ← confirmLines rest
    pure (("• " ++ dcap ++ " — " ++ pyFmtComma n ++ " сум") :: ls)

/-- The multi-transaction confirmation (lines 171-173). -/
def confirmMulti (l : List Json) : Except Unit String := do
  let total ← confirmTotal l
  let ls ← confirmLines l
  pure ("✅ Записано " ++ (⟨toDecL l.length⟩ : String) ++ " позиций!\n\n"
    ++ String.intercalate "\n" ls ++ "\n\n💰 Итого: " ++ pyFmtComma total ++ " сум")

/-- The confirmation block of `handle_message` applied to whatever
`parse_message` returned: `len(rows)` and the branch on it.  A dict or
string of length ≠ 1 raises while indexing its first element; `len` of a
number, boolean or `None` raises immediately; empty iterables reach the
multi-item message with zero items. -/
def confirmation : Json → Except Unit String
  | .arr [r] => confirmSingle r
  | .arr l => confirmMulti l
  | .obj [] => confirmMulti []
  | .str s => if s.data.isEmpty then confirmMulti [] else .error ()
  | _ => .error ()

/-! ## `handle_message` -/

/-- The stats-query keywords of the dispatcher. -/
def kwStats : List String := ["итоги", "итог", "статистика", "отчёт", "отчет"]

/-- The debts-query keywords of the dispatcher. -/
def kwDebts : List String := ["долги", "долг"]

/-- The help keywords of the dispatcher. -/
def kwHelp : List String := ["помощь", "help", "/help", "/start"]

/-- The error reply of the write path's `except` clause. -/
def writeErrMsg : String :=
  "❌ Не смог разобрать. Попробуй написать иначе, например:\nтакси 15000\nили\nмолоко 8000\nмясо 45000"

/-- The static help text of `send_help`. -/
def helpMsg : String :=
  "👋 <b>Привет! Я твой финансовый бот.</b>\n\n<b>Как записывать:</b>\n• <code>такси 15000</code> — расход\n• <code>зарплата 5000000</code> — доход  \n• <code>одолжил Алишеру 100000</code> — долг\n• <code>вернул Темур 50000</code> — возврат долга\n\n<b>Список (несколько строк):</b>\n<code>молоко 8000\nмясо 45000\nхлеб 3000</code>\n\n<b>Команды:</b>\n• <b>итоги</b> — статистика за месяц\n• <b>долги</b> — кто кому должен\n• <b>помощь</b> — эта подсказка"

/-- Everything one call of `handle_message` does that the claims observe:
the replies sent, the final Транзакции sheet contents, how many times the
extraction service was invoked, and whether an exception escaped the
handler uncaught. -/
structure BotOut where
  replies : List String
  sheet : List (List Json)
  extractionCalls : Nat
  raised : Bool

/-- `handle_message`.  Ambient effects arrive as parameters: `svc` is the
extraction service call's outcome (response text or a raised network
error), `store` the sheet read used by the query paths, `nowStamp` the
write timestamp `datetime.now(tz).strftime("%d.%m.%Y %H:%M")`, and `sheet`
the current Транзакции contents on the write path. -/
def handleMessage (myChatId chatId : Int) (text : String) (svc : Except Unit String)
    (store : Except Unit (List Row)) (currentMonth monthLabel nowStamp : String)
    (sheet : List (List Json)) : BotOut :=
  if chatId ≠ myChatId then ⟨[], sheet, 0, false⟩
  else
    let t := pyStrip text
    if kwStats.contains (pyLower t) then
      ⟨sendStats store currentMonth monthLabel, sheet, 0, false⟩
    else if kwDebts.contains (pyLower t) then
      match sendDebts store with
      | .error _ => ⟨[], sheet, 0, true⟩
      | .ok rs => ⟨rs, sheet, 0, false⟩
    else if kwHelp.contains (pyLower t) then
      ⟨[helpMsg], sheet, 0, false⟩
    else
      match svc with
      | .error _ => ⟨["⏳ Записываю...", writeErrMsg], sheet, 1, false⟩
      | .ok resp =>
        match parseMessage resp with
        | none => ⟨["⏳ Записываю...", writeErrMsg], sheet, 1, false⟩
        | some rows =>
          let res := addTransaction nowStamp rows sheet
          if res.2 then ⟨["⏳ Записываю...", writeErrMsg], res.1, 1, false⟩
          else
            match confirmation rows with
            | .ok m => ⟨["⏳ Записываю...", m], res.1, 1, false⟩
            | .error _ => ⟨["⏳ Записываю...", writeErrMsg], res.1, 1, false⟩

/-! ## The write timestamp (`strftime("%d.%m.%Y %H:%M")`) -/

/-- Two-digit zero-padded decimal field of `strftime` (`%d`, `%m`, `%H`,
`%M`; the fields of a valid datetime are below 100). -/
def pad2L (n : Nat) : List Char :=
  [decDigit (n / 10), decDigit (n % 10)]

/-- Four-digit year field of `strftime` (`%Y`; real datetime years here are
four digits). -/
def pad4L (n : Nat) : List Char :=
  [decDigit (n / 1000), decDigit (n / 100 % 10), decDigit (n / 10 % 10), decDigit (n % 10)]

/-- `datetime.strftime("%d.%m.%Y %H:%M")` of a local datetime. -/
def strftimeDMYHM (d mo y h mi : Nat) : String :=
  ⟨pad2L d ++ '.' :: pad2L mo ++ '.' :: pad4L y ++ ' ' :: pad2L h ++ ':' :: pad2L mi⟩

/-- Does the string have the shape `DD.MM.YYYY HH:MM` (digits and the fixed
punctuation in the fixed positions)? -/
def shapeDMYHM (s : String) : Bool :=
  match s.data with
  | [d1, d2, p1, m1, m2, p2, y1, y2, y3, y4, sp, h1, h2, co, n1, n2] =>
    d1.isDigit && d2.isDigit && p1 == '.' && m1.isDigit && m2.isDigit && p2 == '.'
      && y1.isDigit && y2.isDigit && y3.isDigit && y4.isDigit && sp == ' '
      && h1.isDigit && h2.isDigit && co == ':' && n1.isDigit && n2.isDigit
  | _ => false

/-! ## Derived notions the claims are stated with -/

/-- Does the row participate in the debt ledger under counterparty `name`:
lower-cased type `"долг"`, non-empty raw description, and stripped
description equal to `name`. -/
def debtTouches (r : Row) (name : String) : Bool :=
  pyLower r.typ == "долг" && r.description != "" && pyStrip r.description == name

/-- The signed contribution of one row to counterparty `name`'s balance:
`+amount` for category `"долг_выдал"`, `-amount` for `"долг_получил"`,
`0` for any other category or a non-participating row. -/
def debtContrib (r : Row) (name : String) : Rat :=
  if debtTouches r name then
    if r.category == "долг_выдал" then (coerceAmount r.amount).getD 0
    else if r.category == "долг_получил" then -((coerceAmount r.amount).getD 0)
    else 0
  else 0

/-- Is the JSON value an array (a Python list)? -/
def isArr : Json → Bool
  | .arr _ => true
  | _ => false

/-- A service response carrying a three-item candidate batch whose second
item has the non-numeric amount `"abc"`. -/
def sampleBatchResponse : String :=
  "[\x7b\"тип\":\"расход\",\"сумма\":8000,\"категория\":\"еда\",\"описание\":\"молоко\"\x7d,\x7b\"тип\":\"расход\",\"сумма\":\"abc\",\"категория\":\"еда\",\"описание\":\"мясо\"\x7d,\x7b\"тип\":\"расход\",\"сумма\":3000,\"категория\":\"еда\",\"описание\":\"хлеб\"\x7d]"

/-- The candidate list `sampleBatchResponse` parses to. -/
def sampleBatch : List Json :=
  [.obj [("тип", .str "расход"), ("сумма", .num 8000), ("категория", .str "еда"),
    ("описание", .str "молоко")],
   .obj [("тип", .str "расход"), ("сумма", .str "abc"), ("категория", .str "еда"),
    ("описание", .str "мясо")],
   .obj [("тип", .str "расход"), ("сумма", .num 3000), ("категория", .str "еда"),
    ("описание", .str "хлеб")]]

/-! ## Lemmas about `str.replace` -/

theorem replFuel_nil (fuel : Nat) (pat rep : List Char) : replFuel fuel pat rep [] = [] := by
  cases fuel <;> rfl

theorem isPrefixOf_self_append (l r : List Char) : l.isPrefixOf (l ++ r) = true := by
  induction l with
  | nil => simp [List.isPrefixOf]
  | cons c cs ih => simp [List.isPrefixOf, ih]

theorem replFuel_skip (fuel : Nat) (p0 : Char) (pat rep : List Char) (c : Char) (cs : List Char)
    (hp : pat.head? = some p0) (hc : c ≠ p0) :
    replFuel (fuel + 1) pat rep (c :: cs) = c :: replFuel fuel pat rep cs := by
  cases pat with
  | nil => simp at hp
  | cons q qs =>
    have hq : q = p0 := by simpa using hp
    have hb : (q == c) = false := beq_eq_false_iff_ne.mpr (fun e => hc (e ▸ hq))
    simp [replFuel, List.isPrefixOf, hb]

theorem replFuel_mono (fuel : Nat) : ∀ (fuel2 : Nat) (pat rep l : List Char), pat ≠ [] →
    l.length ≤ fuel → l.length ≤ fuel2 →
    replFuel fuel pat rep l = replFuel fuel2 pat rep l := by
  induction fuel with
  | zero =>
    intro fuel2 pat rep l _ h1 _
    have : l = [] := List.eq_nil_of_length_eq_zero (Nat.le_zero.mp h1)
    subst this
    rw [replFuel_nil, replFuel_nil]
  | succ f ih =>
    intro fuel2 pat rep l hp h1 h2
    cases l with
    | nil => rw [replFuel_nil, replFuel_nil]
    | cons c cs =>
      cases fuel2 with
      | zero => simp at h2
      | succ f2 =>
        have hpat1 : 1 ≤ pat.length := by
          cases pat with
          | nil => exact absurd rfl hp
          | cons q qs => simp
        show (if !pat.isEmpty && pat.isPrefixOf (c :: cs) then
            rep ++ replFuel f pat rep (List.drop pat.length (c :: cs))
          else c :: replFuel f pat rep cs) =
          (if !pat.isEmpty && pat.isPrefixOf (c :: cs) then
            rep ++ replFuel f2 pat rep (List.drop pat.length (c :: cs))
          else c :: replFuel f2 pat rep cs)
        by_cases hcond : (!pat.isEmpty && pat.isPrefixOf (c :: cs)) = true
        · rw [if_pos hcond, if_pos hcond]
          have hd : (List.drop pat.length (c :: cs)).length ≤ f := by
            rw [List.length_drop]
            have : (c :: cs).length ≤ f + 1 := h1
            simp at this ⊢
            omega
          have hd2 : (List.drop pat.length (c :: cs)).length ≤ f2 := by
            rw [List.length_drop]
            have : (c :: cs).length ≤ f2 + 1 := h2
            simp at this ⊢
            omega
          rw [ih f2 pat rep _ hp hd hd2]
        · rw [if_neg hcond, if_neg hcond]
          have hcs : cs.length ≤ f := by
            have : (c :: cs).length ≤ f + 1 := h1
            simpa using this
          have hcs2 : cs.length ≤ f2 := by
            have : (c :: cs).length ≤ f2 + 1 := h2
            simpa using this
          rw [ih f2 pat rep cs hp hcs hcs2]

theorem replL_skip (p0 : Char) (pat rep : List Char) (c : Char) (cs : List Char)
    (hp : pat.head? = some p0) (hc : c ≠ p0) :
    replL pat rep (c :: cs) = c :: replL pat rep cs :=
  replFuel_skip cs.length p0 pat rep c cs hp hc

theorem replL_noocc (p0 : Char) (pat rep : List Char) (hp : pat.head? = some p0) :
    ∀ l : List Char, p0 ∉ l → replL pat rep l = l := by
  intro l
  induction l with
  | nil => intro _; rfl
  | cons c cs ih =>
    intro h
    simp only [List.mem_cons, not_or] at h
    rw [replL_skip p0 pat rep c cs hp (fun e => h.1 e.symm), ih h.2]

theorem replL_append_noocc (p0 : Char) (pat rep : List Char) (hp : pat.head? = some p0) :
    ∀ (l r : List Char), p0 ∉ l → replL pat rep (l ++ r) = l ++ replL pat rep r := by
  intro l
  induction l with
  | nil => intro r _; rfl
  | cons c cs ih =>
    intro r h
    simp only [List.mem_cons, not_or] at h
    show replL pat rep (c :: (cs ++ r)) = _
    rw [replL_skip p0 pat rep c (cs ++ r) hp (fun e => h.1 e.symm), ih r h.2]
    rfl

theorem replL_match (pat rep r : List Char) (hp : pat ≠ []) :
    replL pat rep (pat ++ r) = rep ++ replL pat rep r := by
  obtain ⟨q, qs, rfl⟩ : ∃ q qs, pat = q :: qs := by
    cases pat with
    | nil => exact absurd rfl hp
    | cons q qs => exact ⟨q, qs, rfl⟩
  show replFuel ((q :: qs) ++ r).length (q :: qs) rep ((q :: qs) ++ r) = _
  have hlen : ((q :: qs) ++ r).length = (qs.length + r.length) + 1 := by
    simp only [List.length_append, List.length_cons]
    omega
  rw [hlen]
  show (if !(q :: qs).isEmpty && (q :: qs).isPrefixOf (q :: (qs ++ r)) then
      rep ++ replFuel (qs.length + r.length) (q :: qs) rep
        (List.drop (q :: qs).length (q :: (qs ++ r)))
    else q :: replFuel (qs.length + r.length) (q :: qs) rep (qs ++ r)) = _
  have hpre : (q :: qs).isPrefixOf (q :: (qs ++ r)) = true := isPrefixOf_self_append _ _
  rw [if_pos (by simp [hpre])]
  have hdrop : List.drop (q :: qs).length (q :: (qs ++ r)) = r := List.drop_left _ _
  rw [hdrop, replFuel_mono (qs.length + r.length) r.length (q :: qs) rep r hp
    (by omega) (le_refl _)]
  rfl

theorem replL_single_drop (l : List Char) :
    replL [' '] [] l = l.filter (fun c => !(c == ' ')) := by
  induction l with
  | nil => rfl
  | cons c cs ih =>
    by_cases hc : c = ' '
    · subst hc
      show replFuel (cs.length + 1) [' '] [] (' ' :: cs) = _
      have : replFuel (cs.length + 1) [' '] [] (' ' :: cs)
          = [] ++ replFuel cs.length [' '] [] (List.drop 1 (' ' :: cs)) := by
        simp [replFuel, List.isPrefixOf]
      rw [this]
      simpa using ih
    · rw [replL_skip ' ' [' '] [] c cs rfl hc, ih]
      simp [hc]

theorem replL_single_map (l : List Char) :
    replL [','] ['.'] l = l.map (fun c => if c = ',' then '.' else c) := by
  induction l with
  | nil => rfl
  | cons c cs ih =>
    by_cases hc : c = ','
    · subst hc
      show replFuel (cs.length + 1) [','] ['.'] (',' :: cs) = _
      have : replFuel (cs.length + 1) [','] ['.'] (',' :: cs)
          = ['.'] ++ replFuel cs.length [','] ['.'] (List.drop 1 (',' :: cs)) := by
        simp [replFuel, List.isPrefixOf]
      rw [this]
      simpa using ih
    · rw [replL_skip ',' [','] ['.'] c cs rfl hc, ih]
      simp [hc]

/-- The residual list of characters the amount coercion hands to `float`:
spaces removed, then commas turned into dots. -/
theorem coerceAmount_data (s : String) :
    coerceAmount s =
      (let l2 := (s.data.filter (fun c => !(c == ' '))).map (fun c => if c = ',' then '.' else c)
       if l2.isEmpty then some 0 else pyFloat? ⟨l2⟩) := by
  show (let s2 := pyReplace (pyReplace s " " "") "," "."
    if s2.data.isEmpty then some 0 else pyFloat? s2) = _
  have h1 : pyReplace s " " "" = ⟨s.data.filter (fun c => !(c == ' '))⟩ := by
    show (⟨replL [' '] [] s.data⟩ : String) = _
    rw [replL_single_drop]
  have h2 : pyReplace (pyReplace s " " "") "," "."
      = ⟨(s.data.filter (fun c => !(c == ' '))).map (fun c => if c = ',' then '.' else c)⟩ := by
    rw [h1]
    show (⟨replL [','] ['.'] (s.data.filter (fun c => !(c == ' ')))⟩ : String) = _
    rw [replL_single_map]
  rw [h2]

/-! ## Lemmas about `str.strip` -/

theorem isPyWs_cases (c : Char) (h : isPyWs c = true) :
    c = ' ' ∨ c = '\t' ∨ c = '\n' ∨ c = '\r' ∨ c = '\x0B' ∨ c = '\x0C' := by
  simpa [isPyWs, or_assoc] using h

theorem isDigit_not_ws {c : Char} (h : c.isDigit = true) : isPyWs c = false := by
  by_contra hw
  rw [Bool.not_eq_false] at hw
  rcases isPyWs_cases c hw with h1 | h1 | h1 | h1 | h1 | h1 <;>
    (subst h1; exact absurd h (by decide))

theorem pyStripL_cons_ws (c : Char) (l : List Char) (h : isPyWs c = true) :
    pyStripL (c :: l) = pyStripL l := by
  unfold pyStripL
  rw [List.dropWhile_cons_of_pos h]

theorem pyStripL_concat_ws (c : Char) (l : List Char) (h : isPyWs c = true) :
    pyStripL (l ++ [c]) = pyStripL l := by
  unfold pyStripL
  rw [List.dropWhile_append]
  by_cases he : (List.dropWhile isPyWs l).isEmpty = true
  · rw [if_pos he]
    rw [List.isEmpty_iff] at he
    rw [he]
    show ((List.dropWhile isPyWs [c]).reverse.dropWhile isPyWs).reverse = _
    rw [show List.dropWhile isPyWs [c] = [] from by simp [List.dropWhile, h]]
  · rw [if_neg he]
    rw [List.reverse_append]
    show ((([c] : List Char).reverse ++ _).dropWhile isPyWs).reverse = _
    rw [show ([c] : List Char).reverse = [c] from rfl]
    show ((c :: (List.dropWhile isPyWs l).reverse).dropWhile isPyWs).reverse = _
    rw [List.dropWhile_cons_of_pos h]

theorem pyStripL_eq_self (l : List Char)
    (h1 : ∀ c, l.head? = some c → isPyWs c = false)
    (h2 : ∀ c, l.getLast? = some c → isPyWs c = false) :
    pyStripL l = l := by
  cases l with
  | nil => rfl
  | cons c cs =>
    unfold pyStripL
    rw [List.dropWhile_cons_of_neg (by simp [h1 c rfl])]
    rcases hlast : (c :: cs).getLast? with _ | d
    · simp at hlast
    · have hrev : (c :: cs).reverse.head? = some d := by
        rw [List.head?_reverse]
        exact hlast
      cases hr : (c :: cs).reverse with
      | nil => simp at hr
      | cons e es =>
        have hed : e = d := by
          rw [hr] at hrev
          simpa using hrev
        subst hed
        have hdw : List.dropWhile isPyWs (e :: es) = e :: es :=
          List.dropWhile_cons_of_neg (by simp [h2 e hlast])
        rw [hdw]
        rw [← hr]
        exact List.reverse_reverse _

theorem head?_dropWhile_not (p : Char → Bool) (l : List Char) :
    ∀ c, (l.dropWhile p).head? = some c → p c = false := by
  induction l with
  | nil => intro c h; simp at h
  | cons a as ih =>
    intro c h
    by_cases ha : p a = true
    · rw [List.dropWhile_cons_of_pos ha] at h
      exact ih c h
    · rw [List.dropWhile_cons_of_neg ha] at h
      have : a = c := by simpa using h
      subst this
      simpa using ha

theorem mem_pyStripL (l : List Char) (c : Char) (h : c ∈ pyStripL l) : c ∈ l := by
  unfold pyStripL at h
  rw [List.mem_reverse] at h
  have h2 := List.Sublist.mem h (List.dropWhile_sublist _)
  rw [List.mem_reverse] at h2
  exact List.Sublist.mem h2 (List.dropWhile_sublist _)

theorem pyStripL_head_not_ws (l : List Char) :
    ∀ c, (pyStripL l).head? = some c → isPyWs c = false := by
  intro c h
  obtain ⟨t, ht⟩ : ((l.dropWhile isPyWs).reverse.dropWhile isPyWs) <:+
      (l.dropWhile isPyWs).reverse := List.dropWhile_suffix _
  have hA : l.dropWhile isPyWs = pyStripL l ++ t.reverse := by
    have hc := congrArg List.reverse ht
    simpa [pyStripL, List.reverse_append] using hc.symm
  have hh : (l.dropWhile isPyWs).head? = some c := by
    rw [hA, List.head?_append, h]
    rfl
  exact head?_dropWhile_not isPyWs l c hh

theorem pyStripL_last_not_ws (l : List Char) :
    ∀ c, (pyStripL l).getLast? = some c → isPyWs c = false := by
  intro c h
  have hrev : (pyStripL l).reverse = (l.dropWhile isPyWs).reverse.dropWhile isPyWs := by
    unfold pyStripL
    rw [List.reverse_reverse]
  have hh : ((l.dropWhile isPyWs).reverse.dropWhile isPyWs).head? = some c := by
    rw [← hrev, List.head?_reverse]
    exact h
  exact head?_dropWhile_not isPyWs _ c hh

theorem pyStripL_idem (l : List Char) : pyStripL (pyStripL l) = pyStripL l :=
  pyStripL_eq_self (pyStripL l) (pyStripL_head_not_ws l) (pyStripL_last_not_ws l)

/-! ## Lemmas about `float` on the amount grammar -/

theorem isDigit_ne_plus {c : Char} (h : c.isDigit = true) : c ≠ '+' := by
  intro e
  subst e
  exact absurd h (by decide)

theorem isDigit_ne_minus {c : Char} (h : c.isDigit = true) : c ≠ '-' := by
  intro e
  subst e
  exact absurd h (by decide)

theorem splitSign_no_sign (c : Char) (r : List Char) (h1 : c ≠ '+') (h2 : c ≠ '-') :
    splitSign (c :: r) = (1, c :: r) := by
  simp [splitSign, h1, h2]

theorem takeWhile_append_not (p : Char → Bool) :
    ∀ (l : List Char) (x : Char) (r : List Char), (∀ c ∈ l, p c = true) → p x = false →
      (l ++ x :: r).takeWhile p = l ∧ (l ++ x :: r).dropWhile p = x :: r := by
  intro l
  induction l with
  | nil =>
    intro x r _ hx
    exact ⟨List.takeWhile_cons_of_neg (by simp [hx]), List.dropWhile_cons_of_neg (by simp [hx])⟩
  | cons c cs ih =>
    intro x r hall hx
    have hc : p c = true := hall c (List.mem_cons_self c cs)
    have ihr := ih x r (fun d hd => hall d (List.mem_cons_of_mem c hd)) hx
    constructor
    · show (c :: (cs ++ x :: r)).takeWhile p = c :: cs
      rw [List.takeWhile_cons_of_pos hc, ihr.1]
    · show (c :: (cs ++ x :: r)).dropWhile p = x :: r
      rw [List.dropWhile_cons_of_pos hc, ihr.2]

theorem floatTail_dot (sgn : Rat) (ip r2 : List Char) :
    floatTail sgn ip ('.' :: r2)
      = (if ip.isEmpty && (r2.takeWhile Char.isDigit).isEmpty then none
         else (expMult (r2.dropWhile Char.isDigit)).map (fun e =>
           sgn * ((digitsVal ip : Rat)
             + (digitsVal (r2.takeWhile Char.isDigit) : Rat)
               / 10 ^ (r2.takeWhile Char.isDigit).length) * e)) := rfl

theorem pyFloat_digits_dot (ds fs : List Char) (hds : ds ≠ [])
    (h1 : ∀ c ∈ ds, c.isDigit = true) (h2 : ∀ c ∈ fs, c.isDigit = true) :
    pyFloat? ⟨ds ++ '.' :: fs⟩
      = some ((digitsVal ds : Rat) + (digitsVal fs : Rat) / 10 ^ fs.length) := by
  obtain ⟨d0, ds2, rfl⟩ : ∃ d0 ds2, ds = d0 :: ds2 := by
    cases ds with
    | nil => exact absurd rfl hds
    | cons a b => exact ⟨a, b, rfl⟩
  have hd0 : d0.isDigit = true := h1 d0 (List.mem_cons_self d0 ds2)
  have h1' : ∀ c ∈ ds2, c.isDigit = true := fun c hc => h1 c (List.mem_cons_of_mem d0 hc)
  have hmem : ∀ c ∈ d0 :: (ds2 ++ '.' :: fs), isPyWs c = false := by
    intro c hc
    rcases List.mem_cons.mp hc with he | hr
    · subst he
      exact isDigit_not_ws hd0
    · rcases List.mem_append.mp hr with hl | hr2
      · exact isDigit_not_ws (h1' c hl)
      · rcases List.mem_cons.mp hr2 with he | hf
        · subst he
          decide
        · exact isDigit_not_ws (h2 c hf)
  have hstrip2 : pyStripL (d0 :: (ds2 ++ '.' :: fs)) = d0 :: (ds2 ++ '.' :: fs) := by
    apply pyStripL_eq_self
    · intro c hc
      exact hmem c (List.mem_of_mem_head? (by rw [hc]; exact Option.mem_some_iff.mpr rfl))
    · intro c hc
      exact hmem c (List.mem_of_mem_getLast? (by rw [hc]; exact Option.mem_some_iff.mpr rfl))
  have hsplit := splitSign_no_sign d0 (ds2 ++ '.' :: fs) (isDigit_ne_plus hd0)
    (isDigit_ne_minus hd0)
  have htd := takeWhile_append_not Char.isDigit ds2 '.' fs h1' (by decide)
  have htake : (d0 :: (ds2 ++ '.' :: fs)).takeWhile Char.isDigit = d0 :: ds2 := by
    rw [List.takeWhile_cons_of_pos hd0, htd.1]
  have hdrop : (d0 :: (ds2 ++ '.' :: fs)).dropWhile Char.isDigit = '.' :: fs := by
    rw [List.dropWhile_cons_of_pos hd0, htd.2]
  have hfp : fs.takeWhile Char.isDigit = fs := List.takeWhile_eq_self_iff.mpr h2
  have hr3 : fs.dropWhile Char.isDigit = [] := List.dropWhile_eq_nil_iff.mpr h2
  have hdata : (⟨(d0 :: ds2) ++ '.' :: fs⟩ : String).data = d0 :: (ds2 ++ '.' :: fs) := rfl
  simp only [pyFloat?, hdata, List.cons_append, hstrip2, hsplit]
  rw [htake, hdrop, floatTail_dot]
  rw [hfp, hr3]
  rw [show expMult [] = some 1 from rfl]
  rw [if_neg (by simp)]
  rw [show ((some (1 : Rat)).map (fun e =>
    ((1 : Int) : Rat) * ((digitsVal (d0 :: ds2) : Rat)
      + (digitsVal fs : Rat) / 10 ^ fs.length) * e))
    = some (((1 : Int) : Rat) * ((digitsVal (d0 :: ds2) : Rat)
      + (digitsVal fs : Rat) / 10 ^ fs.length) * 1) from rfl]
  congr 1
  push_cast
  ring

theorem isDigit_ne_comma {c : Char} (h : c.isDigit = true) : c ≠ ',' := by
  intro e
  subst e
  exact absurd h (by decide)

/-- Round-trip of the amount coercion on space-grouped, comma-decimal
strings: any string whose non-space characters are a non-empty digit run,
a comma and a digit run coerces to the denoted decimal value. -/
theorem coerce_grouped (s : String) (ds fs : List Char)
    (hf : s.data.filter (fun c => !(c == ' ')) = ds ++ ',' :: fs)
    (hds : ds ≠ []) (h1 : ∀ c ∈ ds, c.isDigit = true) (h2 : ∀ c ∈ fs, c.isDigit = true) :
    coerceAmount s = some ((digitsVal ds : Rat) + (digitsVal fs : Rat) / 10 ^ fs.length) := by
  have hmap : (ds ++ ',' :: fs).map (fun c => if c = ',' then '.' else c) = ds ++ '.' :: fs := by
    rw [List.map_append]
    have hds2 : ds.map (fun c => if c = ',' then '.' else c) = ds := by
      have : ds.map (fun c => if c = ',' then '.' else c) = ds.map id :=
        List.map_congr_left (fun c hc => if_neg (isDigit_ne_comma (h1 c hc)))
      rw [this, List.map_id]
    have hfs2 : fs.map (fun c => if c = ',' then '.' else c) = fs := by
      have : fs.map (fun c => if c = ',' then '.' else c) = fs.map id :=
        List.map_congr_left (fun c hc => if_neg (isDigit_ne_comma (h2 c hc)))
      rw [this, List.map_id]
    rw [hds2]
    show ds ++ ((if (',' : Char) = ',' then '.' else ',')
      :: fs.map (fun c => if c = ',' then '.' else c)) = _
    rw [if_pos rfl, hfs2]
  rw [coerceAmount_data]
  simp only [hf, hmap]
  rw [if_neg (by simp [List.isEmpty_iff])]
  exact pyFloat_digits_dot ds fs hds h1 h2

/-! ## Lemmas about `get_month_stats` -/

theorem statsStep_no_date (cm : String) (acc : Stats) (r : Row)
    (h : dateMatch cm r = false) : statsStep cm acc r = acc := by
  simp [statsStep, h]

theorem statsStep_bad_amount (cm : String) (acc : Stats) (r : Row)
    (h : coerceAmount r.amount = none) : statsStep cm acc r = acc := by
  simp [statsStep, h]

theorem getMonthStats_drop_middle (cm lbl : String) (pre post : List Row) (r : Row)
    (h : ∀ acc, statsStep cm acc r = acc) :
    getMonthStats cm lbl (pre ++ r :: post) = getMonthStats cm lbl (pre ++ post) := by
  unfold getMonthStats
  rw [List.foldl_append, List.foldl_append, List.foldl_cons, h]

/-! ## Lemmas about the category ranking -/

theorem mem_insertDesc (x : String × Rat) (l : List (String × Rat)) (y : String × Rat) :
    y ∈ insertDesc x l ↔ y = x ∨ y ∈ l := by
  induction l with
  | nil => simp [insertDesc]
  | cons q qs ih =>
    unfold insertDesc
    by_cases h : q.2 ≤ x.2
    · rw [if_pos h]
      simp [List.mem_cons]
    · rw [if_neg h]
      simp [List.mem_cons, ih]
      tauto

theorem sorted_insertDesc (x : String × Rat) (l : List (String × Rat))
    (h : l.Pairwise (fun a b => b.2 ≤ a.2)) :
    (insertDesc x l).Pairwise (fun a b => b.2 ≤ a.2) := by
  induction l with
  | nil => simp [insertDesc]
  | cons q qs ih =>
    rcases List.pairwise_cons.mp h with ⟨hq, hqs⟩
    unfold insertDesc
    by_cases hc : q.2 ≤ x.2
    · rw [if_pos hc]
      refine List.pairwise_cons.mpr ⟨?_, h⟩
      intro y hy
      rcases List.mem_cons.mp hy with rfl | hm
      · exact hc
      · exact le_trans (hq y hm) hc
    · rw [if_neg hc]
      refine List.pairwise_cons.mpr ⟨?_, ih hqs⟩
      intro y hy
      rcases (mem_insertDesc x qs y).mp hy with rfl | hm
      · exact le_of_lt (lt_of_not_le hc)
      · exact hq y hm

theorem sorted_sortDescByVal (l : List (String × Rat)) :
    (sortDescByVal l).Pairwise (fun a b => b.2 ≤ a.2) := by
  induction l with
  | nil => simp [sortDescByVal]
  | cons x xs ih => exact sorted_insertDesc x _ ih

theorem filter_insertDesc (v : Rat) (x : String × Rat) (l : List (String × Rat)) :
    (insertDesc x l).filter (fun p => decide (p.2 = v))
      = if x.2 = v then x :: l.filter (fun p => decide (p.2 = v))
        else l.filter (fun p => decide (p.2 = v)) := by
  induction l with
  | nil =>
    by_cases hx : x.2 = v <;> simp [insertDesc, hx]
  | cons q qs ih =>
    unfold insertDesc
    by_cases hc : q.2 ≤ x.2
    · rw [if_pos hc]
      by_cases hx : x.2 = v <;> simp [List.filter_cons, hx]
    · rw [if_neg hc]
      by_cases hq : q.2 = v
      · have hx : ¬x.2 = v := by
          intro hx
          exact hc (le_of_eq (hq.trans hx.symm))
        simp [List.filter_cons, hq, hx, ih]
      · by_cases hx : x.2 = v <;> simp [List.filter_cons, hq, hx, ih]

theorem filter_sortDescByVal (v : Rat) (l : List (String × Rat)) :
    (sortDescByVal l).filter (fun p => decide (p.2 = v))
      = l.filter (fun p => decide (p.2 = v)) := by
  induction l with
  | nil => rfl
  | cons x xs ih =>
    show (insertDesc x (sortDescByVal xs)).filter _ = _
    rw [filter_insertDesc]
    by_cases hx : x.2 = v <;> simp [List.filter_cons, hx, ih]

/-! ## Lemmas about the debt ledger fold -/

theorem lookupA_addAt (l : List (String × Rat)) (k name : String) (a : Rat) :
    lookupA (addAt l k a) name
      = (lookupA l name).map (fun v => if name = k then v + a else v) := by
  unfold lookupA addAt
  rw [List.find?_map]
  have hpred : ((fun p : String × Rat => p.1 == name)
      ∘ (fun p : String × Rat => if p.1 == k then (p.1, p.2 + a) else p))
      = fun p : String × Rat => p.1 == name := by
    funext p
    by_cases h : (p.1 == k) = true <;> simp [Function.comp, h]
  rw [hpred]
  cases hf : l.find? (fun p => p.1 == name) with
  | none => simp
  | some p =>
    have hname : p.1 = name := by simpa using List.find?_some hf
    simp only [Option.map_some', Option.some.injEq]
    rw [show (p.1 == k) = (name == k) from by rw [hname]]
    by_cases hk : name = k
    · rw [if_pos (by simpa using hk), if_pos hk]
    · rw [if_neg (by simpa using hk), if_neg hk]

theorem lookupA_append_single (l : List (String × Rat)) (k name : String) (z : Rat) :
    lookupA (l ++ [(k, z)]) name
      = (lookupA l name).or (if name = k then some z else none) := by
  unfold lookupA
  rw [List.find?_append]
  cases hf : l.find? (fun p => p.1 == name) with
  | some p => simp
  | none =>
    by_cases hk : name = k
    · simp [List.find?, hk]
    · have : (k == name) = false := by
        simp [beq_iff_eq]
        exact fun e => hk e.symm
      simp [List.find?, this, hk]

theorem debtContrib_zero_of_no_touch (r : Row) (name : String)
    (h : debtTouches r name = false) : debtContrib r name = 0 := by
  simp [debtContrib, h]

/-- One `send_debts` loop step, observed through a lookup: an existing
balance gains the row's signed contribution, an absent key appears exactly
when the row touches the name. -/
theorem lookupA_debtStep (acc : List (String × Rat)) (r : Row) (name : String) :
    lookupA (debtStep acc r) name
      = ((lookupA acc name).map (fun v => v + debtContrib r name)).or
          (if debtTouches r name then some (debtContrib r name) else none) := by
  unfold debtStep
  by_cases hg : (pyLower r.typ == "долг" && r.description != "") = true
  · rw [if_pos hg]
    dsimp only
    by_cases hn : pyStrip r.description = name
    · have ht : debtTouches r name = true := by
        simp only [debtTouches, Bool.and_eq_true] at hg ⊢
        exact ⟨hg, by simpa using hn⟩
      cases hl : lookupA acc name with
      | some v =>
        have hkey : (lookupA acc (pyStrip r.description)).isSome = true := by
          rw [hn, hl]
          rfl
        rw [if_pos hkey]
        by_cases hc1 : (r.category == "долг_выдал") = true
        · rw [if_pos hc1]
          rw [lookupA_addAt, hl]
          simp [ht, hn, debtContrib, hc1]
        · rw [if_neg hc1]
          by_cases hc2 : (r.category == "долг_получил") = true
          · rw [if_pos hc2]
            rw [lookupA_addAt, hl]
            simp [ht, hn, debtContrib, hc1, hc2]
          · rw [if_neg hc2]
            rw [hl]
            simp [ht, debtContrib, hc1, hc2]
      | none =>
        have hkey2 : ¬((lookupA acc (pyStrip r.description)).isSome = true) := by
          rw [hn, hl]
          simp
        by_cases hc1 : (r.category == "долг_выдал") = true
        · rw [if_pos hc1, if_neg hkey2, lookupA_addAt, lookupA_append_single, hl]
          simp [ht, hn, debtContrib, hc1]
        · rw [if_neg hc1]
          by_cases hc2 : (r.category == "долг_получил") = true
          · rw [if_pos hc2, if_neg hkey2, lookupA_addAt, lookupA_append_single, hl]
            simp [ht, hn, debtContrib, hc1, hc2]
          · rw [if_neg hc2, if_neg hkey2, lookupA_append_single, hl]
            simp [ht, hn, debtContrib, hc1, hc2]
    · have hn' : ¬name = pyStrip r.description := fun e => hn e.symm
      have ht : debtTouches r name = false := by
        unfold debtTouches
        rw [show (pyStrip r.description == name) = false from by simpa using hn]
        simp
      have hcontrib : debtContrib r name = 0 := debtContrib_zero_of_no_touch r name ht
      have hkeyacc : lookupA (if (lookupA acc (pyStrip r.description)).isSome
          then acc else acc ++ [(pyStrip r.description, 0)]) name = lookupA acc name := by
        by_cases hk : (lookupA acc (pyStrip r.description)).isSome = true
        · rw [if_pos hk]
        · rw [if_neg hk, lookupA_append_single, if_neg hn']
          cases lookupA acc name <;> rfl
      by_cases hc1 : (r.category == "долг_выдал") = true
      · rw [if_pos hc1, lookupA_addAt, hkeyacc]
        cases hv : lookupA acc name <;> simp [hn', ht, hcontrib]
      · rw [if_neg hc1]
        by_cases hc2 : (r.category == "долг_получил") = true
        · rw [if_pos hc2, lookupA_addAt, hkeyacc]
          cases hv : lookupA acc name <;> simp [hn', ht, hcontrib]
        · rw [if_neg hc2, hkeyacc]
          cases hv : lookupA acc name <;> simp [ht, hcontrib]
  · rw [if_neg hg]
    have ht : debtTouches r name = false := by
      unfold debtTouches
      cases ha : (pyLower r.typ == "долг") with
      | false => simp [ha]
      | true =>
        have hb : (r.description != "") = false := by
          by_contra hb
          rw [Bool.not_eq_false] at hb
          exact hg (by simp [ha, hb])
        simp [ha, hb]
    have hcontrib : debtContrib r name = 0 := debtContrib_zero_of_no_touch r name ht
    cases hv : lookupA acc name <;> simp [ht, hcontrib]

theorem lookupA_foldl_debtStep (rows : List Row) :
    ∀ (acc : List (String × Rat)) (name : String),
    lookupA (rows.foldl debtStep acc) name
      = ((lookupA acc name).map
          (fun v => v + (rows.map (fun r => debtContrib r name)).sum)).or
        (if rows.any (fun r => debtTouches r name) then
          some ((rows.map (fun r => debtContrib r name)).sum) else none) := by
  induction rows with
  | nil =>
    intro acc name
    cases hl : lookupA acc name <;> simp [hl]
  | cons r rs ih =>
    intro acc name
    rw [List.foldl_cons, ih (debtStep acc r) name, lookupA_debtStep]
    cases hl : lookupA acc name with
    | some v => simp [add_assoc]
    | none =>
      by_cases htr : debtTouches r name = true
      · simp [htr]
      · have htr' : debtTouches r name = false := by simpa using htr
        simp [htr', debtContrib_zero_of_no_touch r name htr']

theorem debt_sum_zero_of_no_touch (rows : List Row) (name : String)
    (h : rows.any (fun r => debtTouches r name) = false) :
    (rows.map (fun r => debtContrib r name)).sum = 0 := by
  induction rows with
  | nil => simp
  | cons r rs ih =>
    rw [List.any_cons, Bool.or_eq_false_iff] at h
    rw [List.map_cons, List.sum_cons, debtContrib_zero_of_no_touch r name h.1, ih h.2,
      add_zero]

/-- The debt dictionary built by `send_debts`, observed through a lookup
with default `0`, is the commutative signed sum of the row contributions. -/
theorem computeDebts_lookup (rows : List Row) (name : String) :
    (lookupA (computeDebts rows) name).getD 0
      = (rows.map (fun r => debtContrib r name)).sum := by
  unfold computeDebts
  rw [lookupA_foldl_debtStep rows [] name]
  rw [show lookupA [] name = none from rfl]
  by_cases ha : rows.any (fun r => debtTouches r name) = true
  · simp [ha]
  · have ha2 : rows.any (fun r => debtTouches r name) = false := by simpa using ha
    simp [ha2, debt_sum_zero_of_no_touch rows name ha2]

theorem computeDebts_perm (rows rows2 : List Row) (h : rows.Perm rows2) (name : String) :
    lookupA (computeDebts rows) name = lookupA (computeDebts rows2) name := by
  unfold computeDebts
  rw [lookupA_foldl_debtStep, lookupA_foldl_debtStep]
  have hsum : (rows.map (fun r => debtContrib r name)).sum
      = (rows2.map (fun r => debtContrib r name)).sum :=
    (h.map (fun r => debtContrib r name)).sum_eq
  have hany : rows.any (fun r => debtTouches r name)
      = rows2.any (fun r => debtTouches r name) := by
    rw [Bool.eq_iff_iff, List.any_eq_true, List.any_eq_true]
    constructor
    · rintro ⟨x, hx, hp⟩
      exact ⟨x, h.mem_iff.mp hx, hp⟩
    · rintro ⟨x, hx, hp⟩
      exact ⟨x, h.mem_iff.mpr hx, hp⟩
  rw [hsum, hany]

/-! ## Lemmas about the write path -/

theorem addTransGo_objs (nowStamp : String) :
    ∀ (rows : List Json) (sheet : List (List Json)),
    (∀ r ∈ rows, isObj r = true) →
    addTransGo nowStamp rows sheet = (sheet ++ rows.map (mkRow nowStamp), false) := by
  intro rows
  induction rows with
  | nil =>
    intro sheet _
    simp [addTransGo]
  | cons r rs ih =>
    intro sheet h
    have hr : isObj r = true := h r (List.mem_cons_self r rs)
    rw [show addTransGo nowStamp (r :: rs) sheet
      = addTransGo nowStamp rs (sheet ++ [mkRow nowStamp r]) from by simp [addTransGo, hr]]
    rw [ih _ (fun x hx => h x (List.mem_cons_of_mem r hx))]
    simp

theorem decDigit_lt10_isDigit : ∀ x : Nat, x < 10 → (decDigit x).isDigit = true := by
  decide

theorem shape_strftime (d mo y h mi : Nat) (hd : d < 100) (hmo : mo < 100)
    (hy : y < 10000) (hh : h < 100) (hmi : mi < 100) :
    shapeDMYHM (strftimeDMYHM d mo y h mi) = true := by
  simp only [shapeDMYHM, strftimeDMYHM, pad2L, pad4L, List.cons_append, List.nil_append]
  simp [decDigit_lt10_isDigit (d / 10) (by omega), decDigit_lt10_isDigit (d % 10) (by omega),
    decDigit_lt10_isDigit (mo / 10) (by omega), decDigit_lt10_isDigit (mo % 10) (by omega),
    decDigit_lt10_isDigit (y / 1000) (by omega),
    decDigit_lt10_isDigit (y / 100 % 10) (by omega),
    decDigit_lt10_isDigit (y / 10 % 10) (by omega), decDigit_lt10_isDigit (y % 10) (by omega),
    decDigit_lt10_isDigit (h / 10) (by omega), decDigit_lt10_isDigit (h % 10) (by omega),
    decDigit_lt10_isDigit (mi / 10) (by omega), decDigit_lt10_isDigit (mi % 10) (by omega)]

theorem handleMessage_foreign (myChatId chatId : Int) (text : String)
    (svc : Except Unit String) (store : Except Unit (List Row))
    (cm lbl now : String) (sheet : List (List Json)) (h : chatId ≠ myChatId) :
    handleMessage myChatId chatId text svc store cm lbl now sheet
      = ⟨[], sheet, 0, false⟩ := by
  unfold handleMessage
  rw [if_pos h]

theorem handleMessage_write_sheet (chat : Int) (text resp : String) (rows : List Json)
    (store : Except Unit (List Row)) (cm lbl now : String) (sheet : List (List Json))
    (h1 : kwStats.contains (pyLower (pyStrip text)) = false)
    (h2 : kwDebts.contains (pyLower (pyStrip text)) = false)
    (h3 : kwHelp.contains (pyLower (pyStrip text)) = false)
    (hp : parseMessage resp = some (Json.arr rows))
    (ho : ∀ r ∈ rows, isObj r = true) :
    (handleMessage chat chat text (.ok resp) store cm lbl now sheet).sheet
      = sheet ++ rows.map (mkRow now) := by
  unfold handleMessage
  rw [if_neg (by simp)]
  simp only [h1, h2, h3, Bool.false_eq_true, if_false]
  rw [hp]
  simp only [addTransaction]
  rw [addTransGo_objs now rows sheet ho]
  cases hc : confirmation (Json.arr rows) <;> simp [hc]

/-! ## Lemmas about the fence stripping of `parse_message` -/

theorem parseMessage_plain (p : String) (hb : '`' ∉ p.data) :
    parseMessage p = jsonLoads (pyStrip p) := by
  unfold parseMessage
  dsimp only
  have hbs : '`' ∉ pyStripL p.data := fun h => hb (mem_pyStripL _ _ h)
  have e2 : pyReplace (pyStrip p) "```json" "" = pyStrip p := by
    show (⟨replL "```json".data "".data (pyStripL p.data)⟩ : String) = _
    rw [show ("" : String).data = ([] : List Char) from rfl,
      replL_noocc '`' "```json".data [] (by decide) _ hbs]
    rfl
  rw [e2]
  have e3 : pyReplace (pyStrip p) "```" "" = pyStrip p := by
    show (⟨replL "```".data "".data (pyStripL p.data)⟩ : String) = _
    rw [show ("" : String).data = ([] : List Char) from rfl,
      replL_noocc '`' "```".data [] (by decide) _ hbs]
    rfl
  rw [e3]
  show jsonLoads ⟨pyStripL (pyStripL p.data)⟩ = _
  rw [pyStripL_idem]
  rfl

theorem parseMessage_fenced (p : String) (hb : '`' ∉ p.data) :
    parseMessage ⟨"```json".data ++ '\n' :: (p.data ++ '\n' :: "```".data)⟩
      = jsonLoads (pyStrip p) := by
  have hfj : "```json".data = '`' :: '`' :: '`' :: 'j' :: 's' :: 'o' :: 'n' :: [] := rfl
  have hf3 : "```".data = '`' :: '`' :: '`' :: [] := rfl
  have hhead : ("```json".data ++ '\n' :: (p.data ++ '\n' :: "```".data)).head?
      = some '`' := by
    rw [hfj]
    rfl
  have hlastform : "```json".data ++ '\n' :: (p.data ++ '\n' :: "```".data)
      = ("```json".data ++ '\n' :: p.data ++ ['\n', '`', '`']) ++ ['`'] := by
    rw [hf3]
    simp
  have hstrip1 : pyStripL ("```json".data ++ '\n' :: (p.data ++ '\n' :: "```".data))
      = "```json".data ++ '\n' :: (p.data ++ '\n' :: "```".data) := by
    apply pyStripL_eq_self
    · intro c hc
      rw [hhead] at hc
      have : c = '`' := by simpa using hc.symm
      subst this
      decide
    · intro c hc
      rw [hlastform, List.getLast?_concat] at hc
      have : c = '`' := by simpa using hc.symm
      subst this
      decide
  have hrepl1 : replL "```json".data [] ("```json".data ++ '\n' :: (p.data ++ '\n' :: "```".data))
      = '\n' :: (p.data ++ '\n' :: "```".data) := by
    rw [replL_match "```json".data [] _ (by rw [hfj]; simp)]
    rw [replL_skip '`' "```json".data [] '\n' _ (by decide) (by decide)]
    rw [replL_append_noocc '`' "```json".data [] (by decide) p.data _ hb]
    rw [replL_skip '`' "```json".data [] '\n' _ (by decide) (by decide)]
    rw [show replL "```json".data [] "```".data = "```".data from by decide]
    rfl
  have hrepl2 : replL "```".data [] ('\n' :: (p.data ++ '\n' :: "```".data))
      = '\n' :: (p.data ++ ['\n']) := by
    rw [replL_skip '`' "```".data [] '\n' _ (by decide) (by decide)]
    rw [replL_append_noocc '`' "```".data [] (by decide) p.data _ hb]
    rw [replL_skip '`' "```".data [] '\n' _ (by decide) (by decide)]
    rw [show replL "```".data [] "```".data = [] from by decide]
  unfold parseMessage
  dsimp only
  have e1 : pyStrip (⟨"```json".data ++ '\n' :: (p.data ++ '\n' :: "```".data)⟩ : String)
      = ⟨"```json".data ++ '\n' :: (p.data ++ '\n' :: "```".data)⟩ := by
    show (⟨pyStripL ("```json".data ++ '\n' :: (p.data ++ '\n' :: "```".data))⟩ : String) = _
    rw [hstrip1]
  rw [e1]
  have e2 : pyReplace (⟨"```json".data ++ '\n' :: (p.data ++ '\n' :: "```".data)⟩ : String)
      "```json" "" = ⟨'\n' :: (p.data ++ '\n' :: "```".data)⟩ := by
    show (⟨replL "```json".data "".data
      ("```json".data ++ '\n' :: (p.data ++ '\n' :: "```".data))⟩ : String) = _
    rw [show ("" : String).data = ([] : List Char) from rfl, hrepl1]
  rw [e2]
  have e3 : pyReplace (⟨'\n' :: (p.data ++ '\n' :: "```".data)⟩ : String) "```" ""
      = ⟨'\n' :: (p.data ++ ['\n'])⟩ := by
    show (⟨replL "```".data "".data ('\n' :: (p.data ++ '\n' :: "```".data))⟩ : String) = _
    rw [show ("" : String).data = ([] : List Char) from rfl, hrepl2]
  rw [e3]
  have e4 : pyStrip (⟨'\n' :: (p.data ++ ['\n'])⟩ : String) = ⟨pyStripL p.data⟩ := by
    show (⟨pyStripL ('\n' :: (p.data ++ ['\n']))⟩ : String) = _
    rw [pyStripL_cons_ws _ _ (by decide), pyStripL_concat_ws _ _ (by decide)]
  rw [e4]
  rfl

theorem debtStep_amount_zero (acc : List (String × Rat)) (r : Row)
    (h : coerceAmount r.amount = none) :
    debtStep acc r = debtStep acc { r with amount := "0" } := by
  unfold debtStep
  have h2 : coerceAmount ({ r with amount := "0" } : Row).amount = some 0 := by
    show coerceAmount "0" = some 0
    decide
  rw [h, h2]
  rfl

/-! ## The claims -/

/-- C1 (counterexample to the claim as stated): a three-item candidate
list whose second item has the non-numeric amount `"abc"` is persisted in
full — three rows are appended to the sheet and the user then receives the
parse-failure reply — while the claim requires that `append` is never
called and the ledger stays unchanged. -/
theorem c1_counterexample :
    (handleMessage 1 1 "молоко 8000\nмясо 45000\nхлеб 3000" (.ok sampleBatchResponse)
      (.ok []) "10.2025" "October 2025" "05.10.2025 22:00" []).sheet.length = 3
    ∧ (handleMessage 1 1 "молоко 8000\nмясо 45000\nхлеб 3000" (.ok sampleBatchResponse)
      (.ok []) "10.2025" "October 2025" "05.10.2025 22:00" []).replies
      = ["⏳ Записываю...", writeErrMsg] := by
  exact ⟨by decide, by decide⟩

/-- C1 (amended): the write path validates nothing — whenever the
extraction output parses to a list of objects, `add_transaction` appends a
row for every candidate (the sheet is extended by exactly the batch,
whether or not the amounts are numeric); an invalid amount only makes the
confirmation message fail afterwards, producing the error reply after the
rows were already persisted. -/
theorem c1_amended (chat : Int) (text resp : String) (rows : List Json)
    (store : Except Unit (List Row)) (cm lbl now : String) (sheet : List (List Json))
    (h1 : kwStats.contains (pyLower (pyStrip text)) = false)
    (h2 : kwDebts.contains (pyLower (pyStrip text)) = false)
    (h3 : kwHelp.contains (pyLower (pyStrip text)) = false)
    (hp : parseMessage resp = some (Json.arr rows))
    (ho : ∀ r ∈ rows, isObj r = true) :
    (handleMessage chat chat text (.ok resp) store cm lbl now sheet).sheet
      = sheet ++ rows.map (mkRow now) :=
  handleMessage_write_sheet chat text resp rows store cm lbl now sheet h1 h2 h3 hp ho

/-- C1 (witness): the amended theorem at the concrete three-item batch. -/
theorem c1_amended_witness :
    (handleMessage 1 1 "молоко 8000\nмясо 45000\nхлеб 3000" (.ok sampleBatchResponse)
      (.ok []) "10.2025" "October 2025" "05.10.2025 22:00" []).sheet
      = [] ++ sampleBatch.map (mkRow "05.10.2025 22:00") :=
  c1_amended 1 "молоко 8000\nмясо 45000\nхлеб 3000" sampleBatchResponse sampleBatch
    (.ok []) "10.2025" "October 2025" "05.10.2025 22:00" []
    (by decide) (by decide) (by decide) (by rfl) (by decide)

/-- C2 (counterexample to the claim as stated): a negative amount is not
rejected — `"-5"` coerces to `-5` and a matching расход row with that
amount is counted into the month's expenses and category totals. -/
theorem c2_counterexample :
    coerceAmount "-5" = some (-5)
    ∧ getMonthStats "10.2025" "October 2025"
        [⟨"01.10.2025 12:00", "расход", "-5", "еда", "x"⟩]
      = ⟨-5, 0, [("еда", -5)], 0, 0, "October 2025"⟩ := by
  exact ⟨by decide, by decide⟩

/-- C2 (amended): the coercion strips spaces and turns the decimal comma
into a dot, recovering the denoted value on every space-grouped
comma-decimal amount string; a residual string that is not numeric is not
a typed rejection: it makes `get_month_stats` skip the whole row, and it
makes `send_debts` treat the amount as `0`; negative values are accepted
unchanged. -/
theorem c2_amended :
    (∀ (s : String) (ds fs : List Char),
      s.data.filter (fun c => !(c == ' ')) = ds ++ ',' :: fs → ds ≠ [] →
      (∀ c ∈ ds, c.isDigit = true) → (∀ c ∈ fs, c.isDigit = true) →
      coerceAmount s
        = some ((digitsVal ds : Rat) + (digitsVal fs : Rat) / 10 ^ fs.length))
    ∧ (∀ (cm lbl : String) (pre post : List Row) (r : Row),
      coerceAmount r.amount = none →
      getMonthStats cm lbl (pre ++ r :: post) = getMonthStats cm lbl (pre ++ post))
    ∧ (∀ (pre post : List Row) (r : Row),
      coerceAmount r.amount = none →
      computeDebts (pre ++ r :: post)
        = computeDebts (pre ++ { r with amount := "0" } :: post)) := by
  refine ⟨coerce_grouped, ?_, ?_⟩
  · intro cm lbl pre post r h
    exact getMonthStats_drop_middle cm lbl pre post r
      (fun acc => statsStep_bad_amount cm acc r h)
  · intro pre post r h
    unfold computeDebts
    rw [List.foldl_append, List.foldl_append, List.foldl_cons, List.foldl_cons,
      debtStep_amount_zero _ r h]

/-- C2 (witness): the amended coercion round-trip at `"1 234,50"`, which
denotes `1234.50`. -/
theorem c2_amended_witness :
    coerceAmount "1 234,50"
      = some ((digitsVal ['1', '2', '3', '4'] : Rat)
        + (digitsVal ['5', '0'] : Rat) / 10 ^ (['5', '0'] : List Char).length) :=
  c2_amended.1 "1 234,50" ['1', '2', '3', '4'] ['5', '0']
    (by decide) (by decide) (by decide) (by decide)

/-- C3: the debt dictionary `send_debts` folds maps every counterparty
name (the stripped description) to the signed balance in which each row of
lower-cased type `долг` with a non-empty description adds its amount under
category `долг_выдал` and subtracts it under `долг_получил`, while rows of
other kinds, rows with empty descriptions and `долг` rows of any other
category contribute nothing. -/
theorem c3_debt_fold (rows : List Row) (name : String) :
    (lookupA (computeDebts rows) name).getD 0
      = (rows.map (fun r => debtContrib r name)).sum :=
  computeDebts_lookup rows name

/-- C4 (counterexample to the claim as stated): a failing sheet read makes
`send_stats` answer with the error reply, not with the zero-filled
no-data report it would send for an empty sheet, and it makes the `долги`
handler raise with no reply at all. -/
theorem c4_counterexample :
    sendStats (.error ()) "10.2025" "October 2025" = [statsErrMsg]
    ∧ sendStats (.error ()) "10.2025" "October 2025"
        ≠ sendStats (.ok []) "10.2025" "October 2025"
    ∧ (handleMessage 1 1 "долги" (.ok "") (.error ()) "10.2025" "October 2025"
        "05.10.2025 22:00" []).raised = true
    ∧ (handleMessage 1 1 "долги" (.ok "") (.error ()) "10.2025" "October 2025"
        "05.10.2025 22:00" []).replies = [] := by
  exact ⟨rfl, by decide, by decide, by decide⟩

/-- C4 (amended): a failing store read does not degrade to a no-data
report: `send_stats` catches it and sends its dedicated error reply, while
`send_debts` does not catch it at all, so the долги handler propagates the
exception and the user gets nothing. -/
theorem c4_amended :
    (∀ cm lbl, sendStats (.error ()) cm lbl = [statsErrMsg])
    ∧ sendDebts (.error ()) = .error ()
    ∧ (∀ (chat : Int) (svc : Except Unit String) (cm lbl now : String)
        (sheet : List (List Json)),
        handleMessage chat chat "долги" svc (.error ()) cm lbl now sheet
          = ⟨[], sheet, 0, true⟩)
    ∧ (∀ (chat : Int) (svc : Except Unit String) (cm lbl now : String)
        (sheet : List (List Json)),
        handleMessage chat chat "итоги" svc (.error ()) cm lbl now sheet
          = ⟨[statsErrMsg], sheet, 0, false⟩) := by
  refine ⟨fun cm lbl => rfl, rfl, ?_, ?_⟩
  · intro chat svc cm lbl now sheet
    unfold handleMessage
    rw [if_neg (by simp)]
    simp [show pyLower (pyStrip "долги") ∉ kwStats from by decide,
      show pyLower (pyStrip "долги") ∈ kwDebts from by decide, sendDebts]
  · intro chat svc cm lbl now sheet
    unfold handleMessage
    rw [if_neg (by simp)]
    simp [show pyLower (pyStrip "итоги") ∈ kwStats from by decide, sendStats]

/-- C5 (counterexample to the claim as stated): a response whose stripped
content parses to the non-list JSON value `123` is returned unchanged by
`parse_message` — there is no `NotAList` failure. -/
theorem c5_counterexample :
    parseMessage "123" = some (Json.num 123) ∧ isArr (Json.num 123) = false := by
  exact ⟨rfl, rfl⟩

/-- C5 (amended): `parse_message` deletes the fence tokens and strips the
result, so a fence-wrapped payload parses exactly like the bare payload;
invalid JSON raises `json.JSONDecodeError` (caught upstream), and whatever
JSON value results — list or not — is returned unchanged. -/
theorem c5_amended (p : String) (hb : '`' ∉ p.data) :
    parseMessage ⟨"```json".data ++ '\n' :: (p.data ++ '\n' :: "```".data)⟩
      = jsonLoads (pyStrip p)
    ∧ parseMessage p = jsonLoads (pyStrip p) :=
  ⟨parseMessage_fenced p hb, parseMessage_plain p hb⟩

/-- C5 (witness): the amended theorem at the payload `"[1, 2]"`. -/
theorem c5_amended_witness :
    parseMessage ⟨"```json".data ++ '\n' :: (("[1, 2]" : String).data ++ '\n' :: "```".data)⟩
      = jsonLoads (pyStrip "[1, 2]")
    ∧ parseMessage "[1, 2]" = jsonLoads (pyStrip "[1, 2]") :=
  c5_amended "[1, 2]" (by decide)

/-- C6: for a non-empty category map, the list `send_stats` displays is
the category totals sorted descending by accumulated amount, it shows at
most the top 7, and amount ties keep the first-seen order from the fold:
on every amount value, the displayed entries form a prefix of the fold
order (the rest being the truncated tail). -/
theorem c6_category_ranking (cm lbl : String) (rows : List Row)
    (hne : (getMonthStats cm lbl rows).categories ≠ []) :
    (displayedCats (getMonthStats cm lbl rows).categories).length ≤ 7
    ∧ (displayedCats (getMonthStats cm lbl rows).categories).Pairwise
        (fun a b => b.2 ≤ a.2)
    ∧ ∀ v : Rat, ∃ t,
        (getMonthStats cm lbl rows).categories.filter (fun p => decide (p.2 = v))
          = (displayedCats (getMonthStats cm lbl rows).categories).filter
              (fun p => decide (p.2 = v)) ++ t := by
  refine ⟨?_, ?_, ?_⟩
  · unfold displayedCats
    rw [List.length_take]
    exact min_le_left 7 _
  · exact List.Pairwise.sublist (List.take_sublist _ _) (sorted_sortDescByVal _)
  · intro v
    refine ⟨(List.drop 7 (sortDescByVal (getMonthStats cm lbl rows).categories)).filter
      (fun p => decide (p.2 = v)), ?_⟩
    rw [← filter_sortDescByVal v]
    conv_lhs => rw [show sortDescByVal (getMonthStats cm lbl rows).categories
      = List.take 7 (sortDescByVal (getMonthStats cm lbl rows).categories)
        ++ List.drop 7 (sortDescByVal (getMonthStats cm lbl rows).categories) from
      (List.take_append_drop _ _).symm]
    rw [List.filter_append]
    rfl

/-- C6 (witness): the ranking properties at a two-row month with an amount
tie, instantiated at the tied value `5`. -/
theorem c6_category_ranking_witness :
    (displayedCats (getMonthStats "10.2025" "m"
      [⟨"01.10.2025 12:00", "расход", "5", "еда", ""⟩,
       ⟨"01.10.2025 12:00", "расход", "5", "кафе", ""⟩]).categories).length ≤ 7
    ∧ (displayedCats (getMonthStats "10.2025" "m"
      [⟨"01.10.2025 12:00", "расход", "5", "еда", ""⟩,
       ⟨"01.10.2025 12:00", "расход", "5", "кафе", ""⟩]).categories).Pairwise
        (fun a b => b.2 ≤ a.2)
    ∧ ∃ t,
        (getMonthStats "10.2025" "m"
          [⟨"01.10.2025 12:00", "расход", "5", "еда", ""⟩,
           ⟨"01.10.2025 12:00", "расход", "5", "кафе", ""⟩]).categories.filter
            (fun p => decide (p.2 = (5 : Rat)))
          = (displayedCats (getMonthStats "10.2025" "m"
              [⟨"01.10.2025 12:00", "расход", "5", "еда", ""⟩,
               ⟨"01.10.2025 12:00", "расход", "5", "кафе", ""⟩]).categories).filter
              (fun p => decide (p.2 = (5 : Rat))) ++ t := by
  obtain ⟨a, b, c⟩ := c6_category_ranking "10.2025" "m"
    [⟨"01.10.2025 12:00", "расход", "5", "еда", ""⟩,
     ⟨"01.10.2025 12:00", "расход", "5", "кафе", ""⟩] (by decide)
  exact ⟨a, b, c 5⟩

/-- C7 (counterexample to the claim as stated): the month filter is a
fixed-offset substring test, not date parsing — the row dated
`"ab.10.2025"` (no parseable day) passes `date_str[3:10] == "10.2025"` and
is counted into October 2025's stats instead of being excluded. -/
theorem c7_counterexample :
    dateMatch "10.2025" ⟨"ab.10.2025", "расход", "5", "еда", ""⟩ = true
    ∧ getMonthStats "10.2025" "October 2025"
        [⟨"ab.10.2025", "расход", "5", "еда", ""⟩]
      = ⟨5, 0, [("еда", 5)], 0, 0, "October 2025"⟩ := by
  exact ⟨by decide, by decide⟩

/-- C7 (amended): `get_month_stats` over an empty row set returns all
totals zero and an empty category map and never fails, and a row is
excluded (from the queried month, without raising) exactly when it fails
the substring test `len(date) ≥ 7 and date[3:10] == current month`; rows
with missing dates fail it, but a malformed date that happens to match at
the fixed offset is included. -/
theorem c7_amended :
    (∀ cm lbl, getMonthStats cm lbl [] = ⟨0, 0, [], 0, 0, lbl⟩)
    ∧ (∀ (cm lbl : String) (pre post : List Row) (r : Row), dateMatch cm r = false →
        getMonthStats cm lbl (pre ++ r :: post) = getMonthStats cm lbl (pre ++ post)) := by
  refine ⟨fun cm lbl => rfl, ?_⟩
  intro cm lbl pre post r h
  exact getMonthStats_drop_middle cm lbl pre post r (fun acc => statsStep_no_date cm acc r h)

/-- C7 (witness): the empty row set, and the removal of a row whose date
string is empty (a missing date). -/
theorem c7_amended_witness :
    getMonthStats "10.2025" "m" [] = ⟨0, 0, [], 0, 0, "m"⟩
    ∧ getMonthStats "10.2025" "m" ([] ++ (⟨"", "расход", "5", "еда", ""⟩ : Row) :: [])
      = getMonthStats "10.2025" "m" ([] ++ []) :=
  ⟨c7_amended.1 "10.2025" "m",
    c7_amended.2 "10.2025" "m" [] [] ⟨"", "расход", "5", "еда", ""⟩ (by decide)⟩

/-- C8: the debt ledger is order-commutative — on any two permuted row
lists, `send_debts` computes the same counterparty-to-balance mapping
(the same lookup result for every name, key presence included). -/
theorem c8_debt_perm (rows rows2 : List Row) (h : rows.Perm rows2) (name : String) :
    lookupA (computeDebts rows) name = lookupA (computeDebts rows2) name :=
  computeDebts_perm rows rows2 h name

/-- C8 (witness): swapping a two-row ledger leaves Ali's balance lookup
unchanged. -/
theorem c8_debt_perm_witness :
    lookupA (computeDebts
      [⟨"01.10.2025 12:00", "долг", "100000", "долг_выдал", "Ali"⟩,
       ⟨"02.10.2025 12:00", "долг", "40000", "долг_получил", "Ali"⟩]) "Ali"
    = lookupA (computeDebts
      [⟨"02.10.2025 12:00", "долг", "40000", "долг_получил", "Ali"⟩,
       ⟨"01.10.2025 12:00", "долг", "100000", "долг_выдал", "Ali"⟩]) "Ali" :=
  c8_debt_perm
    [⟨"01.10.2025 12:00", "долг", "100000", "долг_выдал", "Ali"⟩,
     ⟨"02.10.2025 12:00", "долг", "40000", "долг_получил", "Ali"⟩]
    [⟨"02.10.2025 12:00", "долг", "40000", "долг_получил", "Ali"⟩,
     ⟨"01.10.2025 12:00", "долг", "100000", "долг_выдал", "Ali"⟩]
    (by decide) "Ali"

/-- C9 (implicit claim): a message from any chat other than the configured
`MY_CHAT_ID` makes the handler return immediately — no reply is sent, the
extraction service is not called, nothing is appended, and no exception
escapes. -/
theorem c9_chat_gate (myChatId chatId : Int) (text : String) (svc : Except Unit String)
    (store : Except Unit (List Row)) (cm lbl now : String) (sheet : List (List Json))
    (h : chatId ≠ myChatId) :
    handleMessage myChatId chatId text svc store cm lbl now sheet
      = ⟨[], sheet, 0, false⟩ :=
  handleMessage_foreign myChatId chatId text svc store cm lbl now sheet h

/-- C9 (witness): the gate at chat id 2 against configured id 1. -/
theorem c9_chat_gate_witness :
    handleMessage 1 2 "такси 15000" (.ok "[]") (.ok []) "10.2025" "October 2025"
      "05.10.2025 22:00" [] = ⟨[], [], 0, false⟩ :=
  c9_chat_gate 1 2 "такси 15000" (.ok "[]") (.ok []) "10.2025" "October 2025"
    "05.10.2025 22:00" [] (by decide)

/-- C10 (implicit claim): one write batch computes its timestamp once —
`add_transaction` appends one row per candidate, in candidate order, each
carrying the identical timestamp string as its first column, and that
string has the shape `DD.MM.YYYY HH:MM` for any valid datetime fields. -/
theorem c10_batch_timestamp (d mo y h mi : Nat) (rows : List Json)
    (sheet : List (List Json)) (hd : d < 100) (hmo : mo < 100) (hy : y < 10000)
    (hh : h < 100) (hmi : mi < 100) (ho : ∀ r ∈ rows, isObj r = true) :
    addTransaction (strftimeDMYHM d mo y h mi) (Json.arr rows) sheet
      = (sheet ++ rows.map (mkRow (strftimeDMYHM d mo y h mi)), false)
    ∧ (∀ row ∈ rows.map (mkRow (strftimeDMYHM d mo y h mi)),
        row.head? = some (Json.str (strftimeDMYHM d mo y h mi)))
    ∧ shapeDMYHM (strftimeDMYHM d mo y h mi) = true := by
  refine ⟨?_, ?_, shape_strftime d mo y h mi hd hmo hy hh hmi⟩
  · simp only [addTransaction]
    exact addTransGo_objs _ rows sheet ho
  · intro row hrow
    rcases List.mem_map.mp hrow with ⟨r, _, rfl⟩
    rfl

/-- C10 (witness): a one-candidate batch at the datetime 05.10.2025
22:00. -/
theorem c10_batch_timestamp_witness :
    addTransaction (strftimeDMYHM 5 10 2025 22 0) (Json.arr [Json.obj []]) []
      = ([] ++ [Json.obj []].map (mkRow (strftimeDMYHM 5 10 2025 22 0)), false)
    ∧ (mkRow (strftimeDMYHM 5 10 2025 22 0) (Json.obj [])).head?
        = some (Json.str (strftimeDMYHM 5 10 2025 22 0))
    ∧ shapeDMYHM (strftimeDMYHM 5 10 2025 22 0) = true := by
  obtain ⟨a, b, c⟩ := c10_batch_timestamp 5 10 2025 22 0 [Json.obj []] []
    (by decide) (by decide) (by decide) (by decide) (by decide) (by decide)
  exact ⟨a, b (mkRow (strftimeDMYHM 5 10 2025 22 0) (Json.obj [])) (by simp), c⟩
